import Mathlib

/-!
# Soccer team generator — verification of the team-assignment engine

Shallow embedding of the team-assignment core of the soccer team generator
(`src/js/UIManager.js`: `calculateTeamSizes`, `createBalancedTeamsWithSizeControl`
and its three phases; `src/js/PlayerManager.js`: `getPlayerOverallRating`,
`getPlayerRatingForPosition`).

Modelling conventions:
* JS numbers that the engine treats as integers (ratings, counts, ids) are `Int`/`Nat`.
* The per-run rating jitter (`tempRatingAdjustment`, a real number in (-5, 5) in JS)
  is modelled as an integer adjustment; no verified property depends on its value.
* `averageRating` (JS stores `(total/count).toFixed(1)`, a decimal string with one
  fractional digit) is modelled as an integer number of tenths,
  `averageRatingTenths = round-half-up (10 * totalRating / count)`, idealising the
  IEEE-double division to exact rational arithmetic.
* `Math.random`-driven choices are modelled as oracle parameters (`Rng`):
  each in-place Fisher–Yates `shuffleArray` call becomes an oracle function on lists,
  constrained in theorems to produce a permutation of its input, and the random
  snake-draft start becomes the `startTeam`/`startDirPositive` fields.
* JS mutation of shared player objects is modelled by storing the updated copy in
  every list that aliases it (a player is pushed to a formation line and to
  `team.players` in one step, with the same field values).
-/

namespace SoccerGen

/-- One stat block (`outfieldStats` / `gkStats`).  The engine reads only the derived
`overall` field; the six sub-ratings never influence assignment and are omitted. -/
structure Stats where
  overall : Int
deriving DecidableEq, Repr

/-- A player record as consumed by the engine (`src/js/UIManager.js`,
`createBalancedTeamsWithSizeControl`).  `tempRatingAdjustment` and
`assignedPosition` are the two engine-owned fields. -/
structure Player where
  id : Nat
  name : String
  positions : List String
  preferredPosition : String
  outfieldStats : Option Stats := none
  gkStats : Option Stats := none
  tempRatingAdjustment : Option Int := none
  assignedPosition : Option String := none
deriving DecidableEq, Repr

/-- A team's formation record (`goalkeeper` is a single nullable slot in JS). -/
structure Formation where
  goalkeeper : Option Player := none
  defenders : List Player := []
  midfielders : List Player := []
  forwards : List Player := []
deriving DecidableEq, Repr

/-- A generated team (`createBalancedTeamsWithSizeControl`, team template). -/
structure Team where
  id : Nat
  name : String
  players : List Player
  formation : Formation
  totalRating : Int
  averageRatingTenths : Int
  targetSize : Nat
deriving DecidableEq, Repr

instance : Inhabited Team :=
  ⟨{ id := 0, name := "", players := [], formation := {}, totalRating := 0,
     averageRatingTenths := 0, targetSize := 0 }⟩

/-- `PlayerManager.getPlayerOverallRating` (src/js/PlayerManager.js:391-412). -/
def getPlayerOverallRating (player : Player) : Int :=
  match player.gkStats, player.outfieldStats with
  | some gk, some outfield =>
    if player.preferredPosition = "GK" then gk.overall else outfield.overall
  | some gk, none => gk.overall
  | none, some outfield => outfield.overall
  | none, none => 75

/-- `PlayerManager.getPlayerRatingForPosition` (src/js/PlayerManager.js:415-434). -/
def getPlayerRatingForPosition (player : Player) (assignedPosition : String) : Int :=
  match player.gkStats, player.outfieldStats with
  | some gk, some outfield =>
    if assignedPosition = "GK" then gk.overall else outfield.overall
  | some gk, none =>
    if assignedPosition = "GK" then gk.overall else max (gk.overall - 20) 40
  | none, some outfield => outfield.overall
  | none, none => 75

/-- `UIManager.calculateTeamSizes` (src/js/UIManager.js:687-694); `generateTeams`
(lines 608-617) computes the same sizes with an explicit loop. -/
def calculateTeamSizes (totalPlayers numTeams : Nat) : List Nat :=
  let baseSize := totalPlayers / numTeams
  let extraPlayers := totalPlayers % numTeams
  (List.range numTeams).map (fun i => baseSize + (if i < extraPlayers then 1 else 0))

/-- The `positionCategories.defenders` list (src/js/UIManager.js:759-764). -/
def positionCategoriesDefenders : List String := ["CB", "LB", "RB"]

/-- The `positionCategories.midfielders` list. -/
def positionCategoriesMidfielders : List String := ["CDM", "CM", "CAM", "LM", "RM"]

/-- The `positionCategories.forwards` list. -/
def positionCategoriesForwards : List String := ["LW", "RW", "ST"]

/-- The inline `linePositions` table of `getBestPositionForFormationLine`
(src/js/UIManager.js:863-867); an unknown line yields no positions. -/
def linePositions (formationLine : String) : List String :=
  if formationLine = "defender" then positionCategoriesDefenders
  else if formationLine = "midfielder" then positionCategoriesMidfielders
  else if formationLine = "forward" then positionCategoriesForwards
  else []

/-- `getBestPositionForFormationLine` (src/js/UIManager.js:858-880).  The JS
`availablePositions[0] || linePositions[formationLine][0]` fallback is the
`headD` chain. -/
def getBestPositionForFormationLine (player : Player) (formationLine : String) : String :=
  if formationLine = "goalkeeper" then "GK"
  else
    let availablePositions :=
      player.positions.filter (fun pos => (linePositions formationLine).contains pos)
    if availablePositions.contains player.preferredPosition then player.preferredPosition
    else availablePositions.headD ((linePositions formationLine).headD "")

/-- Effective rating used by the initial sort (src/js/UIManager.js:767-771):
overall rating plus the jitter (`tempRatingAdjustment || 0`). -/
def effectiveRating (p : Player) : Int :=
  getPlayerOverallRating p + p.tempRatingAdjustment.getD 0

/-- The snake-draft cursor advance with clamp-and-flip (src/js/UIManager.js:896-903,
952-959, 966-973): add the direction, clamp to the last index flipping to -1 on
overflow, clamp to 0 flipping to +1 on underflow. -/
def snakeAdvance (numTeams : Nat) (cur : Nat) (dir : Int) : Nat × Int :=
  if (numTeams : Int) ≤ (cur : Int) + dir then (numTeams - 1, -1)
  else if (cur : Int) + dir < 0 then (0, 1)
  else (((cur : Int) + dir).toNat, dir)

/-- Mutable state threaded through the three assignment phases
(`teams`, `assignedPlayers`, `currentTeam`, `direction` locals of
`createBalancedTeamsWithSizeControl`).  `oobLookup` records whether a
`teams[currentTeam]` lookup in phase 2 ever fell outside the team array
(in JS such a lookup would dereference `undefined` and throw). -/
structure GenState where
  teams : List Team
  assignedPlayers : List Nat
  currentTeam : Nat
  direction : Int
  oobLookup : Bool
deriving Repr

/-- In-place update of `teams[i]` (no-op when `i` is out of range). -/
def updateAt (teams : List Team) (i : Nat) (f : Team → Team) : List Team :=
  match teams[i]? with
  | some t => teams.set i (f t)
  | none => teams

/-- Phase 1 body (src/js/UIManager.js:804-813): store the goalkeeper in the single
`formation.goalkeeper` slot and append to `team.players`. -/
def pushGK (gk : Player) (t : Team) : Team :=
  { t with
    formation := { t.formation with goalkeeper := some gk }
    players := t.players ++ [gk] }

/-- One iteration of the phase-1 loop: the pair is `(shuffledGKs[i], teamOrder[i])`;
the player's `assignedPosition` is set to `'GK'` before it is stored. -/
def assignGoalkeeperStep (st : GenState) (pt : Player × Nat) : GenState :=
  let player := { pt.1 with assignedPosition := some "GK" }
  { st with
    teams := updateAt st.teams pt.2 (pushGK player)
    assignedPlayers := player.id :: st.assignedPlayers }

/-- Phase 1, goalkeeper assignment: the JS loop
`for (i = 0; i < teamOrder.length && i < shuffledGKs.length; i++)` walks exactly
`shuffledGKs.zip teamOrder`. -/
def phase1 (st : GenState) (pairs : List (Player × Nat)) : GenState :=
  pairs.foldl assignGoalkeeperStep st

/-- An element of the phase-2 `assignmentPool` (src/js/UIManager.js:837-852). -/
structure PoolItem where
  player : Player
  priority : String
deriving DecidableEq, Repr

/-- Push a player into the defender line and into `team.players`. -/
def pushDefender (p : Player) (t : Team) : Team :=
  { t with
    formation := { t.formation with defenders := t.formation.defenders ++ [p] }
    players := t.players ++ [p] }

/-- Push a player into the midfielder line and into `team.players`. -/
def pushMidfielder (p : Player) (t : Team) : Team :=
  { t with
    formation := { t.formation with midfielders := t.formation.midfielders ++ [p] }
    players := t.players ++ [p] }

/-- Push a player into the forward line and into `team.players`. -/
def pushForward (p : Player) (t : Team) : Team :=
  { t with
    formation := { t.formation with forwards := t.formation.forwards ++ [p] }
    players := t.players ++ [p] }

/-- `player.assignedPosition = getBestPositionForFormationLine(player, line)` —
the mutation performed just before every phase-2 push. -/
def withAssigned (player : Player) (line : String) : Player :=
  { player with assignedPosition := some (getBestPositionForFormationLine player line) }

/-- The placement attempt of the phase-2 loop body (src/js/UIManager.js:908-948):
first the priority line if it has room, then the flexible fallback over
defender → midfielder → forward lines for which the player holds an eligible
position.  Returns the updated team and the stored player copy on success. -/
def tryAssignToTeam (item : PoolItem) (team : Team) : Option (Team × Player) :=
  if item.priority = "defender" ∧ team.formation.defenders.length < 4 then
    some (pushDefender (withAssigned item.player "defender") team,
      withAssigned item.player "defender")
  else if item.priority = "midfielder" ∧ team.formation.midfielders.length < 4 then
    some (pushMidfielder (withAssigned item.player "midfielder") team,
      withAssigned item.player "midfielder")
  else if item.priority = "forward" ∧ team.formation.forwards.length < 3 then
    some (pushForward (withAssigned item.player "forward") team,
      withAssigned item.player "forward")
  else if team.formation.defenders.length < 4 ∧
      item.player.positions.any (fun pos => positionCategoriesDefenders.contains pos) then
    some (pushDefender (withAssigned item.player "defender") team,
      withAssigned item.player "defender")
  else if team.formation.midfielders.length < 4 ∧
      item.player.positions.any (fun pos => positionCategoriesMidfielders.contains pos) then
    some (pushMidfielder (withAssigned item.player "midfielder") team,
      withAssigned item.player "midfielder")
  else if team.formation.forwards.length < 3 ∧
      item.player.positions.any (fun pos => positionCategoriesForwards.contains pos) then
    some (pushForward (withAssigned item.player "forward") team,
      withAssigned item.player "forward")
  else none

/-- The phase-2 `while (attempts < numTeams && !assigned)` loop for a single pool
item (src/js/UIManager.js:890-962).  `fuel` is the number of attempts still
allowed; a full or unsuitable team advances the cursor (`snakeAdvance`) and
consumes one attempt.  Returns whether the player was assigned. -/
def phase2TryTeams (numTeams : Nat) (item : PoolItem) : Nat → GenState → GenState × Bool
  | 0, st => (st, false)
  | fuel + 1, st =>
    match st.teams[st.currentTeam]? with
    | none => ({ st with oobLookup := true }, false)
    | some team =>
      if team.targetSize ≤ team.players.length then
        let cd := snakeAdvance numTeams st.currentTeam st.direction
        phase2TryTeams numTeams item fuel { st with currentTeam := cd.1, direction := cd.2 }
      else
        match tryAssignToTeam item team with
        | some tp =>
          ({ st with
             teams := st.teams.set st.currentTeam tp.1
             assignedPlayers := item.player.id :: st.assignedPlayers }, true)
        | none =>
          let cd := snakeAdvance numTeams st.currentTeam st.direction
          phase2TryTeams numTeams item fuel { st with currentTeam := cd.1, direction := cd.2 }

/-- One iteration of `for (const item of assignmentPool)` (src/js/UIManager.js:883-975):
skip already-assigned players; otherwise run the attempt loop and, on success,
advance the cursor once more to continue the snake pattern. -/
def phase2Step (numTeams : Nat) (st : GenState) (item : PoolItem) : GenState :=
  if st.assignedPlayers.contains item.player.id then st
  else if (phase2TryTeams numTeams item numTeams st).2 then
    { (phase2TryTeams numTeams item numTeams st).1 with
      currentTeam := (snakeAdvance numTeams
        (phase2TryTeams numTeams item numTeams st).1.currentTeam
        (phase2TryTeams numTeams item numTeams st).1.direction).1
      direction := (snakeAdvance numTeams
        (phase2TryTeams numTeams item numTeams st).1.currentTeam
        (phase2TryTeams numTeams item numTeams st).1.direction).2 }
  else (phase2TryTeams numTeams item numTeams st).1

/-- Phase 2, the size-controlled snake draft over the assignment pool. -/
def phase2 (numTeams : Nat) (pool : List PoolItem) (st : GenState) : GenState :=
  pool.foldl (phase2Step numTeams) st

/-- `team.players.length < team.targetSize` (src/js/UIManager.js:985). -/
def teamHasSpace (t : Team) : Bool := t.players.length < t.targetSize

/-- Phase 3's `teamsWithSpace` after the ascending stable sort by current size
(src/js/UIManager.js:985-990), as indices into `teams`. -/
def teamsWithSpaceSorted (teams : List Team) : List Nat :=
  ((List.range teams.length).filter (fun i => teamHasSpace (teams.getD i default))).insertionSort
    (fun i j => (teams.getD i default).players.length ≤ (teams.getD j default).players.length)

/-- The first placement loop of phase 3 (src/js/UIManager.js:992-1013): walk the
sorted teams-with-space and return the first team with a formation line below its
cap, with the line encoded as 0 = defenders, 1 = midfielders, 2 = forwards. -/
def phase3FindSlot (teams : List Team) : List Nat → Option (Nat × Nat)
  | [] => none
  | i :: rest =>
    if (teams.getD i default).formation.defenders.length < 4 then some (i, 0)
    else if (teams.getD i default).formation.midfielders.length < 4 then some (i, 1)
    else if (teams.getD i default).formation.forwards.length < 3 then some (i, 2)
    else phase3FindSlot teams rest

/-- Push into the formation line selected by `phase3FindSlot` (phase 3 pushes the
player unchanged: it does not set `assignedPosition`). -/
def pushLineAt (code : Nat) (p : Player) (t : Team) : Team :=
  if code = 0 then pushDefender p t
  else if code = 1 then pushMidfielder p t
  else pushForward p t

/-- Phase 3, the flexible leftover sweep (src/js/UIManager.js:977-1022): for each
remaining player recompute the teams with spare size budget; `break` (dropping
every later player) when there are none; otherwise place into the first team with
formation-line room, and failing that append to the smallest team as an unslotted
substitute. -/
def phase3 : List Player → List Team → List Nat → List Team × List Nat
  | [], teams, assigned => (teams, assigned)
  | player :: rest, teams, assigned =>
    if (teamsWithSpaceSorted teams).isEmpty then (teams, assigned)
    else
      match phase3FindSlot teams (teamsWithSpaceSorted teams) with
      | some ic =>
        phase3 rest (updateAt teams ic.1 (pushLineAt ic.2 player)) (player.id :: assigned)
      | none =>
        phase3 rest
          (updateAt teams ((teamsWithSpaceSorted teams).headD 0)
            (fun t => { t with players := t.players ++ [player] }))
          (player.id :: assigned)

/-- Strip the transient jitter field (`delete player.tempRatingAdjustment`,
src/js/UIManager.js:1027-1029). -/
def stripTemp (p : Player) : Player := { p with tempRatingAdjustment := none }

/-- `(totalRating / count).toFixed(1)` in tenths: round half up (ECMA `toFixed`
picks the larger candidate on ties), idealised to exact arithmetic. -/
def roundHalfUpTenths (total : Int) (count : Nat) : Int :=
  Int.fdiv (20 * total + count) (2 * count)

/-- The final statistics pass over one team (src/js/UIManager.js:1025-1035):
strip every member's jitter (in JS the `delete` also reaches the formation lists,
which alias the same objects), then `totalRating` as the sum of overall ratings and
`averageRating` as the one-decimal average, `0` for an empty team. -/
def calculateTeamStatistics (team : Team) : Team :=
  { team with
    players := team.players.map stripTemp
    formation :=
      { goalkeeper := team.formation.goalkeeper.map stripTemp
        defenders := team.formation.defenders.map stripTemp
        midfielders := team.formation.midfielders.map stripTemp
        forwards := team.formation.forwards.map stripTemp }
    totalRating := ((team.players.map stripTemp).map getPlayerOverallRating).sum
    averageRatingTenths :=
      if 0 < (team.players.map stripTemp).length then
        roundHalfUpTenths ((team.players.map stripTemp).map getPlayerOverallRating).sum
          (team.players.map stripTemp).length
      else 0 }

/-- The randomness consumed by one run: the snake-draft start
(src/js/UIManager.js:778-779) and the outcome of each `shuffleArray` call
(Fisher–Yates, lines 1056-1060), one oracle per call site.  Theorems constrain
each oracle to produce a permutation of its input, which is exactly the
reachable set of Fisher–Yates outcomes. -/
structure Rng where
  startTeam : Nat
  startDirPositive : Bool
  shufPrefGK : List Player → List Player
  shufAltGK : List Player → List Player
  shufTeamOrder : List Nat → List Nat
  shufDefenders : List Player → List Player
  shufMidfielders : List Player → List Player
  shufForwards : List Player → List Player
  shufPool : List PoolItem → List PoolItem
  shufLeftover : List Player → List Player

/-- The fresh team template array (src/js/UIManager.js:743-756). -/
def initTeams (numTeams : Nat) (targetTeamSizes : List Nat) : List Team :=
  (List.range numTeams).map (fun index =>
    { id := index + 1
      name := "Team " ++ toString (index + 1)
      players := []
      formation := {}
      totalRating := 0
      averageRatingTenths := 0
      targetSize := targetTeamSizes.getD index 0 })

/-- The phase-2 pool assembly (src/js/UIManager.js:818-855): group the remaining
players by eligible line, shuffle each group, cap the groups at `numTeams × 4/4/3`,
tag with the group priority, concatenate and shuffle the combined pool. -/
def buildPool (rng : Rng) (numTeams : Nat) (remainingPlayers : List Player) : List PoolItem :=
  let defendersGroup := rng.shufDefenders (remainingPlayers.filter
    (fun p => p.positions.any (fun pos => positionCategoriesDefenders.contains pos)))
  let midfieldersGroup := rng.shufMidfielders (remainingPlayers.filter
    (fun p => p.positions.any (fun pos => positionCategoriesMidfielders.contains pos)))
  let forwardsGroup := rng.shufForwards (remainingPlayers.filter
    (fun p => p.positions.any (fun pos => positionCategoriesForwards.contains pos)))
  rng.shufPool
    ((defendersGroup.take (numTeams * 4)).map (fun p => { player := p, priority := "defender" }) ++
     (midfieldersGroup.take (numTeams * 4)).map (fun p => { player := p, priority := "midfielder" }) ++
     (forwardsGroup.take (numTeams * 3)).map (fun p => { player := p, priority := "forward" }))

/-- The rating-sorted player list (src/js/UIManager.js:767-771).  JS `Array.sort`
with the descending-rating comparator is (per ECMA) some stable sort; modelled by
a stable insertion sort on the same key. -/
def sortedPlayersOf (playersToUse : List Player) : List Player :=
  playersToUse.insertionSort (fun a b => effectiveRating b ≤ effectiveRating a)

/-- The engine state at the top of `createBalancedTeamsWithSizeControl`
(src/js/UIManager.js:743-781). -/
def initialState (rng : Rng) (numTeams : Nat) (targetTeamSizes : List Nat) : GenState :=
  { teams := initTeams numTeams targetTeamSizes
    assignedPlayers := []
    currentTeam := rng.startTeam
    direction := if rng.startDirPositive then 1 else -1
    oobLookup := false }

/-- The `allGKCapablePlayers` filter (src/js/UIManager.js:787-789): players whose
positions include `'GK'` and who are not yet assigned. -/
def gkCandidates (sortedPlayers : List Player) (assigned : List Nat) : List Player :=
  sortedPlayers.filter (fun p => p.positions.contains "GK" && !(assigned.contains p.id))

/-- The phase-1 `(shuffledGKs[i], teamOrder[i])` pairs (src/js/UIManager.js:786-804):
GK-capable unassigned players, shuffled preferred-first, zipped with the shuffled
team order. -/
def gkPairs (rng : Rng) (numTeams : Nat) (sortedPlayers : List Player)
    (assigned : List Nat) : List (Player × Nat) :=
  (rng.shufPrefGK ((gkCandidates sortedPlayers assigned).filter
      (fun p => p.preferredPosition == "GK")) ++
   rng.shufAltGK ((gkCandidates sortedPlayers assigned).filter
      (fun p => p.preferredPosition != "GK"))).zip
    (rng.shufTeamOrder (List.range numTeams))

/-- The `...filter(p => !assignedPlayers.has(p.id))` recomputations of the
not-yet-assigned players (src/js/UIManager.js:819, 978). -/
def remainingAfter (sortedPlayers : List Player) (assigned : List Nat) : List Player :=
  sortedPlayers.filter (fun p => !(assigned.contains p.id))

/-- Engine state after phase 1 (goalkeeper assignment). -/
def stateAfterPhase1 (rng : Rng) (numTeams : Nat) (targetTeamSizes : List Nat)
    (playersToUse : List Player) : GenState :=
  phase1 (initialState rng numTeams targetTeamSizes)
    (gkPairs rng numTeams (sortedPlayersOf playersToUse)
      (initialState rng numTeams targetTeamSizes).assignedPlayers)

/-- Engine state after phase 2 (the size-controlled snake draft). -/
def stateAfterPhase2 (rng : Rng) (numTeams : Nat) (targetTeamSizes : List Nat)
    (playersToUse : List Player) : GenState :=
  phase2 numTeams
    (buildPool rng numTeams
      (remainingAfter (sortedPlayersOf playersToUse)
        (stateAfterPhase1 rng numTeams targetTeamSizes playersToUse).assignedPlayers))
    (stateAfterPhase1 rng numTeams targetTeamSizes playersToUse)

/-- The phase-3 run over the players still unassigned after phase 2
(src/js/UIManager.js:977-1022). -/
def phase3Result (rng : Rng) (numTeams : Nat) (targetTeamSizes : List Nat)
    (playersToUse : List Player) : List Team × List Nat :=
  phase3
    (rng.shufLeftover (remainingAfter (sortedPlayersOf playersToUse)
      (stateAfterPhase2 rng numTeams targetTeamSizes playersToUse).assignedPlayers))
    (stateAfterPhase2 rng numTeams targetTeamSizes playersToUse).teams
    (stateAfterPhase2 rng numTeams targetTeamSizes playersToUse).assignedPlayers

/-- `createBalancedTeamsWithSizeControl` up to the end of phase 3
(src/js/UIManager.js:738-1022), returning the full engine state. -/
def runPhases (rng : Rng) (numTeams : Nat) (targetTeamSizes : List Nat)
    (playersToUse : List Player) : GenState :=
  { stateAfterPhase2 rng numTeams targetTeamSizes playersToUse with
    teams := (phase3Result rng numTeams targetTeamSizes playersToUse).1
    assignedPlayers := (phase3Result rng numTeams targetTeamSizes playersToUse).2 }

/-- `createBalancedTeamsWithSizeControl` (src/js/UIManager.js:738-1043): the three
assignment phases followed by the statistics pass. -/
def createBalancedTeamsWithSizeControl (rng : Rng) (numTeams : Nat)
    (targetTeamSizes : List Nat) (playersToUse : List Player) : List Team :=
  (runPhases rng numTeams targetTeamSizes playersToUse).teams.map calculateTeamStatistics

/-- The ids of all players across all teams, with multiplicity. -/
def teamPlayersIds (teams : List Team) : List Nat :=
  ((teams.map (fun t => t.players)).flatten).map (fun p => p.id)

/-- The dual-role player of the spec's Example C: `preferredPosition = 'GK'`,
both stat blocks present, `gkStats.overall = 90`, `outfieldStats.overall = 78`. -/
def exampleCPlayer : Player :=
  { id := 1, name := "C", positions := ["GK", "CB"], preferredPosition := "GK",
    outfieldStats := some ⟨78⟩, gkStats := some ⟨90⟩ }

/-! ## Structural helper lemmas -/

lemma teamPlayersIds_nil : teamPlayersIds [] = [] := rfl

lemma teamPlayersIds_cons (t : Team) (ts : List Team) :
    teamPlayersIds (t :: ts) = t.players.map (fun p => p.id) ++ teamPlayersIds ts := by
  simp [teamPlayersIds]

lemma teamPlayersIds_set_perm :
    ∀ (teams : List Team) (i : Nat) {team t' : Team} {p : Player},
      teams[i]? = some team → t'.players = team.players ++ [p] →
      (teamPlayersIds (teams.set i t')).Perm (p.id :: teamPlayersIds teams)
  | [], i, team, t', p, h, _ => by simp at h
  | u :: us, 0, team, t', p, h, hp => by
    obtain rfl : u = team := by simpa using h
    simp only [List.set_cons_zero, teamPlayersIds_cons, hp, List.map_append,
      List.append_assoc, List.map_cons, List.map_nil, List.singleton_append]
    exact List.perm_middle
  | u :: us, i + 1, team, t', p, h, hp => by
    simp only [List.set_cons_succ, teamPlayersIds_cons]
    exact ((teamPlayersIds_set_perm us i (by simpa using h) hp).append_left _).trans
      List.perm_middle

lemma length_updateAt (teams : List Team) (i : Nat) (f : Team → Team) :
    (updateAt teams i f).length = teams.length := by
  unfold updateAt
  cases teams[i]? <;> simp

lemma mem_updateAt {teams : List Team} {i : Nat} {f : Team → Team} {t : Team}
    (h : t ∈ updateAt teams i f) : t ∈ teams ∨ ∃ u, teams[i]? = some u ∧ t = f u := by
  unfold updateAt at h
  split at h
  · rcases List.mem_or_eq_of_mem_set h with h1 | rfl
    · exact .inl h1
    · next u hu => exact .inr ⟨u, hu, rfl⟩
  · exact .inl h

lemma forall_mem_set {P : Team → Prop} {teams : List Team} {i : Nat} {t' : Team}
    (h : ∀ t ∈ teams, P t) (h' : P t') : ∀ t ∈ teams.set i t', P t := by
  intro t ht
  rcases List.mem_or_eq_of_mem_set ht with h1 | rfl
  exacts [h t h1, h']

lemma forall_mem_updateAt {P : Team → Prop} {teams : List Team} {i : Nat} {f : Team → Team}
    (h : ∀ t ∈ teams, P t) (h' : ∀ u, teams[i]? = some u → P (f u)) :
    ∀ t ∈ updateAt teams i f, P t := by
  intro t ht
  rcases mem_updateAt ht with h1 | ⟨u, hu, rfl⟩
  exacts [h t h1, h' u hu]

lemma countP_set_true (pred : Team → Bool) :
    ∀ (teams : List Team) (i : Nat) {team t' : Team},
      teams[i]? = some team → pred team = false → pred t' = true →
      (teams.set i t').countP pred = teams.countP pred + 1
  | [], i, team, t', h, _, _ => by simp at h
  | u :: us, 0, team, t', h, hf, ht => by
    obtain rfl : u = team := by simpa using h
    simp [List.countP_cons, hf, ht]
  | u :: us, i + 1, team, t', h, hf, ht => by
    simp only [List.set_cons_succ, List.countP_cons]
    rw [countP_set_true pred us i (by simpa using h) hf ht]
    omega

lemma countP_set_congr (pred : Team → Bool) :
    ∀ (teams : List Team) (i : Nat) {team t' : Team},
      teams[i]? = some team → pred t' = pred team →
      (teams.set i t').countP pred = teams.countP pred
  | [], i, team, t', h, _ => by simp at h
  | u :: us, 0, team, t', h, he => by
    obtain rfl : u = team := by simpa using h
    simp [List.countP_cons, he]
  | u :: us, i + 1, team, t', h, he => by
    simp only [List.set_cons_succ, List.countP_cons]
    rw [countP_set_congr pred us i (by simpa using h) he]

lemma foldl_preserve {σ τ : Type _} {P : σ → Prop} {f : σ → τ → σ}
    (hf : ∀ s t, P s → P (f s t)) : ∀ (l : List τ) (s : σ), P s → P (l.foldl f s)
  | [], _, h => h
  | t :: ts, s, h => foldl_preserve hf ts (f s t) (hf s t h)

/-! ## Snake-draft cursor lemmas -/

lemma snakeAdvance_fst_lt {numTeams cur : Nat} (dir : Int) (h : cur < numTeams) :
    (snakeAdvance numTeams cur dir).1 < numTeams := by
  unfold snakeAdvance
  split_ifs <;> simp <;> omega

lemma snakeAdvance_snd {numTeams cur : Nat} {dir : Int} (h : dir = 1 ∨ dir = -1) :
    (snakeAdvance numTeams cur dir).2 = 1 ∨ (snakeAdvance numTeams cur dir).2 = -1 := by
  unfold snakeAdvance
  split_ifs
  · exact .inr rfl
  · exact .inl rfl
  · exact h

/-! ## Position-resolution lemmas -/

lemma getBest_mem_linePositions (player : Player) (line : String)
    (hgk : line ≠ "goalkeeper") (hne : linePositions line ≠ []) :
    getBestPositionForFormationLine player line ∈ linePositions line := by
  unfold getBestPositionForFormationLine
  rw [if_neg hgk]
  by_cases hc : (player.positions.filter
      (fun pos => (linePositions line).contains pos)).contains player.preferredPosition
  · rw [if_pos hc]
    have hm := List.elem_iff.mp hc
    exact List.elem_iff.mp (List.mem_filter.mp hm).2
  · rw [if_neg hc]
    cases ha : player.positions.filter (fun pos => (linePositions line).contains pos) with
    | nil =>
      cases hl : linePositions line with
      | nil => exact absurd hl hne
      | cons b bs => simp [ha, hl]
    | cons a as =>
      have hmem : a ∈ player.positions.filter
          (fun pos => (linePositions line).contains pos) := by
        rw [ha]; exact List.mem_cons_self a as
      simpa [ha] using List.elem_iff.mp (List.mem_filter.mp hmem).2

lemma getBest_ne_GK (player : Player) (line : String)
    (hl : line = "defender" ∨ line = "midfielder" ∨ line = "forward") :
    getBestPositionForFormationLine player line ≠ "GK" := by
  have hgk : line ≠ "goalkeeper" := by rcases hl with rfl | rfl | rfl <;> decide
  have hne : linePositions line ≠ [] := by rcases hl with rfl | rfl | rfl <;> decide
  have hmem := getBest_mem_linePositions player line hgk hne
  intro hEq
  rw [hEq] at hmem
  rcases hl with rfl | rfl | rfl <;> revert hmem <;> decide

/-! ## Placement-step specifications -/

lemma pushLineAt_players (code : Nat) (p : Player) (t : Team) :
    (pushLineAt code p t).players = t.players ++ [p] := by
  unfold pushLineAt pushDefender pushMidfielder pushForward
  split_ifs <;> rfl

lemma pushLineAt_goalkeeper (code : Nat) (p : Player) (t : Team) :
    (pushLineAt code p t).formation.goalkeeper = t.formation.goalkeeper := by
  unfold pushLineAt pushDefender pushMidfielder pushForward
  split_ifs <;> rfl

lemma pushLineAt_targetSize (code : Nat) (p : Player) (t : Team) :
    (pushLineAt code p t).targetSize = t.targetSize := by
  unfold pushLineAt pushDefender pushMidfielder pushForward
  split_ifs <;> rfl

lemma tryAssignToTeam_spec {item : PoolItem} {team team' : Team} {p : Player}
    (h : tryAssignToTeam item team = some (team', p)) :
    team'.players = team.players ++ [p] ∧
    p.id = item.player.id ∧
    p.preferredPosition = item.player.preferredPosition ∧
    team'.targetSize = team.targetSize ∧
    team'.formation.goalkeeper = team.formation.goalkeeper ∧
    (∃ line, (line = "defender" ∨ line = "midfielder" ∨ line = "forward") ∧
      p = withAssigned item.player line) ∧
    (team'.formation.defenders = team.formation.defenders ∨
      (team.formation.defenders.length < 4 ∧
        team'.formation.defenders = team.formation.defenders ++ [p])) ∧
    (team'.formation.midfielders = team.formation.midfielders ∨
      (team.formation.midfielders.length < 4 ∧
        team'.formation.midfielders = team.formation.midfielders ++ [p])) ∧
    (team'.formation.forwards = team.formation.forwards ∨
      (team.formation.forwards.length < 3 ∧
        team'.formation.forwards = team.formation.forwards ++ [p])) := by
  unfold tryAssignToTeam at h
  split_ifs at h with h1 h2 h3 h4 h5 h6
  · simp only [Option.some.injEq, Prod.mk.injEq] at h
    obtain ⟨rfl, rfl⟩ := h
    exact ⟨rfl, rfl, rfl, rfl, rfl, ⟨"defender", .inl rfl, rfl⟩,
      .inr ⟨h1.2, rfl⟩, .inl rfl, .inl rfl⟩
  · simp only [Option.some.injEq, Prod.mk.injEq] at h
    obtain ⟨rfl, rfl⟩ := h
    exact ⟨rfl, rfl, rfl, rfl, rfl, ⟨"midfielder", .inr (.inl rfl), rfl⟩,
      .inl rfl, .inr ⟨h2.2, rfl⟩, .inl rfl⟩
  · simp only [Option.some.injEq, Prod.mk.injEq] at h
    obtain ⟨rfl, rfl⟩ := h
    exact ⟨rfl, rfl, rfl, rfl, rfl, ⟨"forward", .inr (.inr rfl), rfl⟩,
      .inl rfl, .inl rfl, .inr ⟨h3.2, rfl⟩⟩
  · simp only [Option.some.injEq, Prod.mk.injEq] at h
    obtain ⟨rfl, rfl⟩ := h
    exact ⟨rfl, rfl, rfl, rfl, rfl, ⟨"defender", .inl rfl, rfl⟩,
      .inr ⟨h4.1, rfl⟩, .inl rfl, .inl rfl⟩
  · simp only [Option.some.injEq, Prod.mk.injEq] at h
    obtain ⟨rfl, rfl⟩ := h
    exact ⟨rfl, rfl, rfl, rfl, rfl, ⟨"midfielder", .inr (.inl rfl), rfl⟩,
      .inl rfl, .inr ⟨h5.1, rfl⟩, .inl rfl⟩
  · simp only [Option.some.injEq, Prod.mk.injEq] at h
    obtain ⟨rfl, rfl⟩ := h
    exact ⟨rfl, rfl, rfl, rfl, rfl, ⟨"forward", .inr (.inr rfl), rfl⟩,
      .inl rfl, .inl rfl, .inr ⟨h6.1, rfl⟩⟩

lemma phase2TryTeams_spec (numTeams : Nat) (item : PoolItem) :
    ∀ (fuel : Nat) (st : GenState),
      ((phase2TryTeams numTeams item fuel st).1.teams = st.teams ∧
       (phase2TryTeams numTeams item fuel st).1.assignedPlayers = st.assignedPlayers ∧
       (phase2TryTeams numTeams item fuel st).2 = false) ∨
      (∃ i team tp, st.teams[i]? = some team ∧ team.players.length < team.targetSize ∧
        tryAssignToTeam item team = some tp ∧
        (phase2TryTeams numTeams item fuel st).1.teams = st.teams.set i tp.1 ∧
        (phase2TryTeams numTeams item fuel st).1.assignedPlayers =
          item.player.id :: st.assignedPlayers) := by
  intro fuel
  induction fuel with
  | zero => intro st; exact .inl ⟨rfl, rfl, rfl⟩
  | succ fuel ih =>
    intro st
    rw [phase2TryTeams]
    cases hlook : st.teams[st.currentTeam]? with
    | none => exact .inl ⟨rfl, rfl, rfl⟩
    | some team =>
      dsimp only
      by_cases hfull : team.targetSize ≤ team.players.length
      · rw [if_pos hfull]
        rcases ih _ with h | ⟨i, team2, tp, ha, hb, hc, hd, he⟩
        · exact .inl h
        · exact .inr ⟨i, team2, tp, ha, hb, hc, hd, he⟩
      · rw [if_neg hfull]
        cases htry : tryAssignToTeam item team with
        | some tp =>
          exact .inr ⟨st.currentTeam, team, tp, hlook, by omega, htry, rfl, rfl⟩
        | none =>
          rcases ih _ with h | ⟨i, team2, tp, ha, hb, hc, hd, he⟩
          · exact .inl h
          · exact .inr ⟨i, team2, tp, ha, hb, hc, hd, he⟩

lemma phase2Step_spec (numTeams : Nat) (st : GenState) (item : PoolItem) :
    ((phase2Step numTeams st item).teams = st.teams ∧
     (phase2Step numTeams st item).assignedPlayers = st.assignedPlayers) ∨
    (item.player.id ∉ st.assignedPlayers ∧
     ∃ i team tp, st.teams[i]? = some team ∧ team.players.length < team.targetSize ∧
       tryAssignToTeam item team = some tp ∧
       (phase2Step numTeams st item).teams = st.teams.set i tp.1 ∧
       (phase2Step numTeams st item).assignedPlayers =
         item.player.id :: st.assignedPlayers) := by
  unfold phase2Step
  by_cases hc : st.assignedPlayers.contains item.player.id
  · rw [if_pos hc]; exact .inl ⟨rfl, rfl⟩
  · rw [if_neg hc]
    have hns : item.player.id ∉ st.assignedPlayers := fun hm => hc (List.elem_iff.mpr hm)
    rcases phase2TryTeams_spec numTeams item numTeams st with h | ⟨i, team, tp, h1, h2, h3, h4, h5⟩
    · rw [h.2.2]
      simp only [Bool.false_eq_true, if_false]
      exact .inl ⟨h.1, h.2.1⟩
    · by_cases hb : (phase2TryTeams numTeams item numTeams st).2 = true
      · rw [if_pos hb]
        exact .inr ⟨hns, i, team, tp, h1, h2, h3, h4, h5⟩
      · rw [if_neg hb]
        exact .inr ⟨hns, i, team, tp, h1, h2, h3, h4, h5⟩

/-! ## Zip and take lemmas -/

lemma map_fst_zip_sublist : ∀ (l1 : List Player) (l2 : List Nat),
    ((l1.zip l2).map Prod.fst).Sublist l1
  | [], _ => by simp
  | _ :: _, [] => by simp
  | a :: as, _ :: bs => by simpa using (map_fst_zip_sublist as bs).cons₂ a

lemma map_snd_zip_sublist : ∀ (l1 : List Player) (l2 : List Nat),
    ((l1.zip l2).map Prod.snd).Sublist l2
  | [], _ => by simp
  | _ :: _, [] => by simp
  | _ :: as, b :: bs => by simpa using (map_snd_zip_sublist as bs).cons₂ b

lemma map_fst_zip_eq_take : ∀ (l1 : List Player) (l2 : List Nat),
    (l1.zip l2).map Prod.fst = l1.take l2.length
  | [], _ => by simp
  | _ :: _, [] => by simp
  | a :: as, b :: bs => by simp [map_fst_zip_eq_take as bs]

/-! ## Initial-state lemmas -/

lemma initTeams_length (numTeams : Nat) (sizes : List Nat) :
    (initTeams numTeams sizes).length = numTeams := by
  simp [initTeams]

lemma mem_initTeams {numTeams : Nat} {sizes : List Nat} {t : Team}
    (h : t ∈ initTeams numTeams sizes) :
    t.players = [] ∧ t.formation.goalkeeper = none ∧ t.formation.defenders = [] ∧
      t.formation.midfielders = [] ∧ t.formation.forwards = [] := by
  simp only [initTeams, List.mem_map] at h
  obtain ⟨i, _, rfl⟩ := h
  exact ⟨rfl, rfl, rfl, rfl, rfl⟩

lemma teamPlayersIds_eq_nil {teams : List Team} (h : ∀ t ∈ teams, t.players = []) :
    teamPlayersIds teams = [] := by
  induction teams with
  | nil => rfl
  | cons t ts ih =>
    rw [teamPlayersIds_cons, h t (List.mem_cons_self t ts),
      ih (fun u hu => h u (List.mem_cons_of_mem t hu))]
    rfl

lemma teamPlayersIds_initTeams (numTeams : Nat) (sizes : List Nat) :
    teamPlayersIds (initTeams numTeams sizes) = [] :=
  teamPlayersIds_eq_nil (fun _ ht => (mem_initTeams ht).1)

/-! ## Phase-1 lemmas -/

lemma phase1_nil (st : GenState) : phase1 st [] = st := rfl

lemma phase1_cons (st : GenState) (pr : Player × Nat) (rest : List (Player × Nat)) :
    phase1 st (pr :: rest) = phase1 (assignGoalkeeperStep st pr) rest := rfl

lemma getElem?_updateAt_ne {teams : List Team} {i j : Nat} {f : Team → Team} (h : i ≠ j) :
    (updateAt teams i f)[j]? = teams[j]? := by
  unfold updateAt
  split
  · rw [List.getElem?_set]
    simp [h]
  · rfl

lemma assignGoalkeeperStep_teams_length (st : GenState) (pr : Player × Nat) :
    (assignGoalkeeperStep st pr).teams.length = st.teams.length := by
  unfold assignGoalkeeperStep
  exact length_updateAt _ _ _

lemma phase1_teams_length : ∀ (pairs : List (Player × Nat)) (st : GenState),
    (phase1 st pairs).teams.length = st.teams.length
  | [], _ => rfl
  | pr :: rest, st => by
    rw [phase1_cons, phase1_teams_length rest, assignGoalkeeperStep_teams_length]

lemma phase1_cursor : ∀ (pairs : List (Player × Nat)) (st : GenState),
    (phase1 st pairs).currentTeam = st.currentTeam ∧
    (phase1 st pairs).direction = st.direction ∧
    (phase1 st pairs).oobLookup = st.oobLookup
  | [], _ => ⟨rfl, rfl, rfl⟩
  | pr :: rest, st => by
    rw [phase1_cons]
    exact phase1_cursor rest _

/-- Invariant: the ids across all teams are pairwise distinct and all recorded in
`assignedPlayers`. -/
def IdsInv (teams : List Team) (assigned : List Nat) : Prop :=
  (teamPlayersIds teams).Nodup ∧ ∀ a ∈ teamPlayersIds teams, a ∈ assigned

/-- Invariant: every id recorded in `assignedPlayers` does appear in some team. -/
def AssignedSub (teams : List Team) (assigned : List Nat) : Prop :=
  ∀ a ∈ assigned, a ∈ teamPlayersIds teams

lemma assignGoalkeeperStep_IdsInv {st : GenState} {pr : Player × Nat}
    (h : IdsInv st.teams st.assignedPlayers) (hfree : pr.1.id ∉ st.assignedPlayers) :
    IdsInv (assignGoalkeeperStep st pr).teams (assignGoalkeeperStep st pr).assignedPlayers := by
  unfold assignGoalkeeperStep updateAt
  dsimp only
  cases hu : st.teams[pr.2]? with
  | none => exact ⟨h.1, fun a ha => List.mem_cons_of_mem _ (h.2 a ha)⟩
  | some u =>
    have hperm := teamPlayersIds_set_perm st.teams pr.2 hu
      (show (pushGK { pr.1 with assignedPosition := some "GK" } u).players
        = u.players ++ [{ pr.1 with assignedPosition := some "GK" }] from rfl)
    constructor
    · refine hperm.symm.nodup (List.nodup_cons.mpr ⟨?_, h.1⟩)
      exact fun hm => hfree (h.2 _ hm)
    · intro a ha
      rcases List.mem_cons.mp (hperm.mem_iff.mp ha) with rfl | hm
      · exact List.mem_cons_self _ _
      · exact List.mem_cons_of_mem _ (h.2 a hm)

lemma phase1_IdsInv : ∀ (pairs : List (Player × Nat)) (st : GenState),
    IdsInv st.teams st.assignedPlayers →
    ((pairs.map (fun pr => pr.1.id)).Nodup) →
    (∀ pr ∈ pairs, pr.1.id ∉ st.assignedPlayers) →
    IdsInv (phase1 st pairs).teams (phase1 st pairs).assignedPlayers
  | [], _, h, _, _ => h
  | pr :: rest, st, h, hnd, hfree => by
    rw [phase1_cons]
    refine phase1_IdsInv rest _
      (assignGoalkeeperStep_IdsInv h (hfree pr (List.mem_cons_self pr rest)))
      (List.nodup_cons.mp hnd).2 ?_
    intro q hq hmem
    rcases List.mem_cons.mp hmem with heq | hmem2
    · have heq' : q.1.id = pr.1.id := heq
      refine absurd ?_ (List.nodup_cons.mp hnd).1
      show pr.1.id ∈ rest.map (fun pr => pr.1.id)
      rw [← heq']
      exact List.mem_map_of_mem _ hq
    · exact hfree q (List.mem_cons_of_mem pr hq) hmem2

lemma phase1_AssignedSub : ∀ (pairs : List (Player × Nat)) (st : GenState),
    AssignedSub st.teams st.assignedPlayers →
    (∀ pr ∈ pairs, pr.2 < st.teams.length) →
    AssignedSub (phase1 st pairs).teams (phase1 st pairs).assignedPlayers
  | [], _, h, _ => h
  | pr :: rest, st, h, hlt => by
    rw [phase1_cons]
    have hu : st.teams[pr.2]? =
        some (st.teams.get ⟨pr.2, hlt pr (List.mem_cons_self pr rest)⟩) := by
      rw [List.getElem?_eq_getElem (hlt pr (List.mem_cons_self pr rest))]
      rfl
    refine phase1_AssignedSub rest _ ?_ ?_
    · intro a ha
      show a ∈ teamPlayersIds (assignGoalkeeperStep st pr).teams
      have hperm := teamPlayersIds_set_perm st.teams pr.2 hu
        (show (pushGK { pr.1 with assignedPosition := some "GK" } _).players
          = _ ++ [{ pr.1 with assignedPosition := some "GK" }] from rfl)
      have hmem : a ∈ ({ pr.1 with assignedPosition := some "GK" } : Player).id ::
          teamPlayersIds st.teams := by
        rcases List.mem_cons.mp ha with rfl | hm
        · exact List.mem_cons_self _ _
        · exact List.mem_cons_of_mem _ (h a hm)
      have : (assignGoalkeeperStep st pr).teams =
          st.teams.set pr.2 (pushGK { pr.1 with assignedPosition := some "GK" }
            (st.teams.get ⟨pr.2, hlt pr (List.mem_cons_self pr rest)⟩)) := by
        unfold assignGoalkeeperStep updateAt
        rw [hu]
      rw [this]
      exact (hperm.symm.mem_iff).mp hmem
    · intro q hq
      rw [assignGoalkeeperStep_teams_length]
      exact hlt q (List.mem_cons_of_mem pr hq)

lemma phase1_team_bound : ∀ (pairs : List (Player × Nat)) (st : GenState),
    ((pairs.map Prod.snd).Nodup) →
    (∀ t ∈ st.teams, t.players.length ≤ 1) →
    (∀ j ∈ pairs.map Prod.snd, ∀ u, st.teams[j]? = some u → u.players = []) →
    ∀ t ∈ (phase1 st pairs).teams, t.players.length ≤ 1
  | [], _, _, hle, _ => hle
  | pr :: rest, st, hnd, hle, hempty => by
    rw [phase1_cons]
    refine phase1_team_bound rest _ (List.nodup_cons.mp hnd).2 ?_ ?_
    · show ∀ t ∈ (updateAt st.teams pr.2 _), t.players.length ≤ 1
      refine forall_mem_updateAt hle ?_
      intro u hu
      have he := hempty pr.2 (by simp) u hu
      simp [pushGK, he]
    · intro j hj u hu
      have hne : pr.2 ≠ j := by
        intro hEq
        exact (List.nodup_cons.mp hnd).1 (hEq ▸ hj)
      have hstable : (assignGoalkeeperStep st pr).teams[j]? = st.teams[j]? :=
        getElem?_updateAt_ne hne
      refine hempty j (List.mem_cons_of_mem _ hj) u ?_
      rw [← hstable]
      exact hu

lemma phase1_gk_count : ∀ (pairs : List (Player × Nat)) (st : GenState),
    ((pairs.map Prod.snd).Nodup) →
    (∀ j ∈ pairs.map Prod.snd, ∃ u, st.teams[j]? = some u ∧ u.formation.goalkeeper = none) →
    (phase1 st pairs).teams.countP (fun t => t.formation.goalkeeper.isSome) =
      st.teams.countP (fun t => t.formation.goalkeeper.isSome) + pairs.length
  | [], _, _, _ => by simp [phase1_nil]
  | pr :: rest, st, hnd, hgk => by
    obtain ⟨u, hu, hnone⟩ := hgk pr.2 (by simp)
    have hstep : (assignGoalkeeperStep st pr).teams.countP
        (fun t => t.formation.goalkeeper.isSome) =
        st.teams.countP (fun t => t.formation.goalkeeper.isSome) + 1 := by
      unfold assignGoalkeeperStep updateAt
      dsimp only
      rw [hu]
      exact countP_set_true _ st.teams pr.2 hu (by simp [hnone]) (by simp [pushGK])
    rw [phase1_cons, phase1_gk_count rest _ (List.nodup_cons.mp hnd).2 ?_, hstep]
    · simp [List.length_cons]
      omega
    · intro j hj
      obtain ⟨v, hv, hvnone⟩ := hgk j (List.mem_cons_of_mem _ hj)
      have hne : pr.2 ≠ j := by
        intro hEq
        exact (List.nodup_cons.mp hnd).1 (hEq ▸ hj)
      refine ⟨v, ?_, hvnone⟩
      show (assignGoalkeeperStep st pr).teams[j]? = some v
      unfold assignGoalkeeperStep
      rw [getElem?_updateAt_ne hne]
      exact hv

lemma phase1_gk_member (pred : Player → Prop) :
    ∀ (pairs : List (Player × Nat)) (st : GenState),
    (∀ pr ∈ pairs, pred { pr.1 with assignedPosition := some "GK" }) →
    (∀ t ∈ st.teams, ∀ p, t.formation.goalkeeper = some p → pred p ∧ p ∈ t.players) →
    ∀ t ∈ (phase1 st pairs).teams, ∀ p, t.formation.goalkeeper = some p →
      pred p ∧ p ∈ t.players
  | [], _, _, h => h
  | pr :: rest, st, hpred, h => by
    rw [phase1_cons]
    refine phase1_gk_member pred rest _
      (fun q hq => hpred q (List.mem_cons_of_mem _ hq)) ?_
    show ∀ t ∈ (updateAt st.teams pr.2 _), _
    refine forall_mem_updateAt h ?_
    intro u _ p hp
    have hp' : some { pr.1 with assignedPosition := some "GK" } = some p := hp
    have hpe : { pr.1 with assignedPosition := some "GK" } = p := by injection hp'
    subst hpe
    constructor
    · exact hpred pr (List.mem_cons_self pr rest)
    · exact List.mem_append_right _ (List.mem_cons_self _ [])

/-! ## Phase-2 preservation lemmas -/

lemma phase2_nil (n : Nat) (st : GenState) : phase2 n [] st = st := rfl

lemma phase2_cons (n : Nat) (item : PoolItem) (pool : List PoolItem) (st : GenState) :
    phase2 n (item :: pool) st = phase2 n pool (phase2Step n st item) := rfl

lemma phase2Step_teams_length (n : Nat) (st : GenState) (item : PoolItem) :
    (phase2Step n st item).teams.length = st.teams.length := by
  rcases phase2Step_spec n st item with ⟨h, _⟩ | ⟨_, i, team, tp, _, _, _, h, _⟩ <;>
    rw [h]
  exact List.length_set st.teams i tp.1

lemma phase2_teams_length (n : Nat) : ∀ (pool : List PoolItem) (st : GenState),
    (phase2 n pool st).teams.length = st.teams.length
  | [], _ => rfl
  | item :: pool, st => by
    rw [phase2_cons, phase2_teams_length n pool, phase2Step_teams_length]

lemma phase2Step_IdsInv {n : Nat} {st : GenState} {item : PoolItem}
    (h : IdsInv st.teams st.assignedPlayers) :
    IdsInv (phase2Step n st item).teams (phase2Step n st item).assignedPlayers := by
  rcases phase2Step_spec n st item with ⟨h1, h2⟩ | ⟨hfree, i, team, tp, h1, _, h3, h4, h5⟩
  · rw [h1, h2]; exact h
  · obtain ⟨t', p⟩ := tp
    have hspec := tryAssignToTeam_spec h3
    have hperm := teamPlayersIds_set_perm st.teams i h1 hspec.1
    rw [h4, h5]
    constructor
    · refine hperm.symm.nodup (List.nodup_cons.mpr ⟨?_, h.1⟩)
      rw [hspec.2.1]
      exact fun hm => hfree (h.2 _ hm)
    · intro a ha
      rcases List.mem_cons.mp (hperm.mem_iff.mp ha) with rfl | hm
      · rw [hspec.2.1]
        exact List.mem_cons_self _ _
      · exact List.mem_cons_of_mem _ (h.2 a hm)

lemma phase2_IdsInv (n : Nat) (pool : List PoolItem) (st : GenState)
    (h : IdsInv st.teams st.assignedPlayers) :
    IdsInv (phase2 n pool st).teams (phase2 n pool st).assignedPlayers :=
  foldl_preserve (P := fun s : GenState => IdsInv s.teams s.assignedPlayers)
    (fun _ _ hs => phase2Step_IdsInv hs) pool st h

lemma phase2Step_AssignedSub {n : Nat} {st : GenState} {item : PoolItem}
    (h : AssignedSub st.teams st.assignedPlayers) :
    AssignedSub (phase2Step n st item).teams (phase2Step n st item).assignedPlayers := by
  rcases phase2Step_spec n st item with ⟨h1, h2⟩ | ⟨_, i, team, tp, h1, _, h3, h4, h5⟩
  · rw [h1, h2]; exact h
  · obtain ⟨t', p⟩ := tp
    have hspec := tryAssignToTeam_spec h3
    have hperm := teamPlayersIds_set_perm st.teams i h1 hspec.1
    rw [h4, h5]
    intro a ha
    refine hperm.symm.mem_iff.mp ?_
    rcases List.mem_cons.mp ha with rfl | hm
    · rw [hspec.2.1]
      exact List.mem_cons_self _ _
    · exact List.mem_cons_of_mem _ (h a hm)

lemma phase2_AssignedSub (n : Nat) (pool : List PoolItem) (st : GenState)
    (h : AssignedSub st.teams st.assignedPlayers) :
    AssignedSub (phase2 n pool st).teams (phase2 n pool st).assignedPlayers :=
  foldl_preserve (P := fun s : GenState => AssignedSub s.teams s.assignedPlayers)
    (fun _ _ hs => phase2Step_AssignedSub hs) pool st h

lemma phase2_teams_pred (P : Team → Prop)
    (hP : ∀ (item : PoolItem) (team : Team) (tp : Team × Player),
      tryAssignToTeam item team = some tp → team.players.length < team.targetSize →
      P team → P tp.1)
    (n : Nat) (pool : List PoolItem) (st : GenState) (h : ∀ t ∈ st.teams, P t) :
    ∀ t ∈ (phase2 n pool st).teams, P t := by
  refine foldl_preserve (P := fun s : GenState => ∀ t ∈ s.teams, P t) ?_ pool st h
  intro s item hs
  rcases phase2Step_spec n s item with ⟨h1, _⟩ | ⟨_, i, team, tp, h1, h2, h3, h4, _⟩
  · rw [h1]; exact hs
  · rw [h4]
    exact forall_mem_set hs (hP item team tp h3 h2 (hs team (List.getElem?_mem h1)))

lemma phase2_gk_countP (n : Nat) : ∀ (pool : List PoolItem) (st : GenState),
    (phase2 n pool st).teams.countP (fun t => t.formation.goalkeeper.isSome) =
      st.teams.countP (fun t => t.formation.goalkeeper.isSome)
  | [], _ => rfl
  | item :: pool, st => by
    rw [phase2_cons, phase2_gk_countP n pool]
    rcases phase2Step_spec n st item with ⟨h1, _⟩ | ⟨_, i, team, tp, h1, _, h3, h4, _⟩
    · rw [h1]
    · obtain ⟨t', p⟩ := tp
      rw [h4]
      exact countP_set_congr _ st.teams i h1 (by simp [(tryAssignToTeam_spec h3).2.2.2.2.1])

/-! ## Phase-3 lemmas -/

/-- The formation line selected by `phase3FindSlot` had spare capacity. -/
def lineRoom (code : Nat) (t : Team) : Prop :=
  (code = 0 ∧ t.formation.defenders.length < 4) ∨
  (code = 1 ∧ t.formation.midfielders.length < 4) ∨
  (code = 2 ∧ t.formation.forwards.length < 3)

lemma phase3FindSlot_spec (teams : List Team) : ∀ (idxs : List Nat) {i c : Nat},
    phase3FindSlot teams idxs = some (i, c) →
    i ∈ idxs ∧ lineRoom c (teams.getD i default) := by
  intro idxs
  induction idxs with
  | nil => intro i c h; simp [phase3FindSlot] at h
  | cons j rest ih =>
    intro i c h
    rw [phase3FindSlot] at h
    split_ifs at h with h1 h2 h3
    · obtain ⟨rfl, rfl⟩ : j = i ∧ 0 = c := by simpa using h
      exact ⟨List.mem_cons_self j rest, .inl ⟨rfl, h1⟩⟩
    · obtain ⟨rfl, rfl⟩ : j = i ∧ 1 = c := by simpa using h
      exact ⟨List.mem_cons_self j rest, .inr (.inl ⟨rfl, h2⟩)⟩
    · obtain ⟨rfl, rfl⟩ : j = i ∧ 2 = c := by simpa using h
      exact ⟨List.mem_cons_self j rest, .inr (.inr ⟨rfl, h3⟩)⟩
    · obtain ⟨hm, hr⟩ := ih h
      exact ⟨List.mem_cons_of_mem j hm, hr⟩

lemma mem_teamsWithSpaceSorted {teams : List Team} {i : Nat}
    (h : i ∈ teamsWithSpaceSorted teams) :
    i < teams.length ∧
      (teams.getD i default).players.length < (teams.getD i default).targetSize := by
  unfold teamsWithSpaceSorted at h
  rw [List.mem_insertionSort] at h
  obtain ⟨h1, h2⟩ := List.mem_filter.mp h
  refine ⟨List.mem_range.mp h1, ?_⟩
  simpa [teamHasSpace] using h2

lemma teamsWithSpaceSorted_nil_full {teams : List Team} (h : teamsWithSpaceSorted teams = []) :
    ∀ t ∈ teams, t.targetSize ≤ t.players.length := by
  intro t ht
  obtain ⟨i, hi, heq⟩ := List.mem_iff_getElem.mp ht
  by_contra hlt
  push_neg at hlt
  have hin : i ∈ teamsWithSpaceSorted teams := by
    unfold teamsWithSpaceSorted
    rw [List.mem_insertionSort, List.mem_filter, List.mem_range]
    refine ⟨hi, ?_⟩
    have hgd : teams.getD i default = t := by
      rw [List.getD_eq_getElem?_getD, List.getElem?_eq_getElem hi]
      exact heq
    rw [hgd]
    simp [teamHasSpace]
    omega
  rw [h] at hin
  exact absurd hin (List.not_mem_nil i)

lemma headD_mem_of_ne_nil {l : List Nat} (h : l ≠ []) : l.headD 0 ∈ l := by
  cases l with
  | nil => exact absurd rfl h
  | cons a as => exact List.mem_cons_self a as

lemma getD_eq_of_getElem? {teams : List Team} {i : Nat} {u : Team}
    (hu : teams[i]? = some u) : teams.getD i default = u := by
  rw [List.getD_eq_getElem?_getD, hu]
  rfl

lemma updateAt_eq_set_of_getElem? {teams : List Team} {i : Nat} {f : Team → Team} {u : Team}
    (hu : teams[i]? = some u) : updateAt teams i f = teams.set i (f u) := by
  unfold updateAt
  rw [hu]

lemma phase3_teams_pred (P : Team → Prop)
    (hP1 : ∀ (code : Nat) (p : Player) (t : Team), t.players.length < t.targetSize →
      lineRoom code t → P t → P (pushLineAt code p t))
    (hP2 : ∀ (p : Player) (t : Team), t.players.length < t.targetSize → P t →
      P { t with players := t.players ++ [p] }) :
    ∀ (players : List Player) (teams : List Team) (assigned : List Nat),
      (∀ t ∈ teams, P t) → ∀ t ∈ (phase3 players teams assigned).1, P t
  | [], _, _, h => h
  | player :: rest, teams, assigned, h => by
    rw [phase3]
    by_cases he : (teamsWithSpaceSorted teams).isEmpty
    · rw [if_pos he]; exact h
    · rw [if_neg he]
      cases hslot : phase3FindSlot teams (teamsWithSpaceSorted teams) with
      | some ic =>
        dsimp only
        refine phase3_teams_pred P hP1 hP2 rest _ _ ?_
        obtain ⟨hmem, hroom⟩ := phase3FindSlot_spec teams _ hslot
        obtain ⟨_, hspace⟩ := mem_teamsWithSpaceSorted hmem
        refine forall_mem_updateAt h ?_
        intro u hu
        rw [getD_eq_of_getElem? hu] at hroom hspace
        exact hP1 ic.2 player u hspace hroom (h u (List.getElem?_mem hu))
      | none =>
        dsimp only
        refine phase3_teams_pred P hP1 hP2 rest _ _ ?_
        have hne : teamsWithSpaceSorted teams ≠ [] := fun hE => by simp [hE] at he
        obtain ⟨_, hspace⟩ := mem_teamsWithSpaceSorted (headD_mem_of_ne_nil hne)
        refine forall_mem_updateAt h ?_
        intro u hu
        rw [getD_eq_of_getElem? hu] at hspace
        exact hP2 player u hspace (h u (List.getElem?_mem hu))

lemma phase3_ids_mono : ∀ (players : List Player) (teams : List Team) (assigned : List Nat),
    ∀ a ∈ teamPlayersIds teams, a ∈ teamPlayersIds (phase3 players teams assigned).1
  | [], _, _ => fun _ ha => ha
  | player :: rest, teams, assigned => by
    intro a ha
    rw [phase3]
    by_cases he : (teamsWithSpaceSorted teams).isEmpty
    · rw [if_pos he]; exact ha
    · rw [if_neg he]
      cases hslot : phase3FindSlot teams (teamsWithSpaceSorted teams) with
      | some ic =>
        dsimp only
        refine phase3_ids_mono rest _ _ a ?_
        obtain ⟨hmem, _⟩ := phase3FindSlot_spec teams _ hslot
        obtain ⟨hlt, _⟩ := mem_teamsWithSpaceSorted hmem
        obtain ⟨u, hu⟩ : ∃ u, teams[ic.1]? = some u := by
          rw [List.getElem?_eq_getElem hlt]; exact ⟨_, rfl⟩
        rw [updateAt_eq_set_of_getElem? hu]
        exact (teamPlayersIds_set_perm teams ic.1 hu
          (pushLineAt_players ic.2 player u)).symm.mem_iff.mp (List.mem_cons_of_mem _ ha)
      | none =>
        dsimp only
        refine phase3_ids_mono rest _ _ a ?_
        have hne : teamsWithSpaceSorted teams ≠ [] := fun hE => by simp [hE] at he
        obtain ⟨hlt, _⟩ := mem_teamsWithSpaceSorted (headD_mem_of_ne_nil hne)
        obtain ⟨u, hu⟩ : ∃ u, teams[(teamsWithSpaceSorted teams).headD 0]? = some u := by
          rw [List.getElem?_eq_getElem hlt]; exact ⟨_, rfl⟩
        rw [updateAt_eq_set_of_getElem? hu]
        exact (teamPlayersIds_set_perm teams _ hu rfl).symm.mem_iff.mp
          (List.mem_cons_of_mem _ ha)

lemma phase3_place_or_full : ∀ (players : List Player) (teams : List Team)
    (assigned : List Nat), ∀ p ∈ players,
      p.id ∈ teamPlayersIds (phase3 players teams assigned).1 ∨
      ∀ t ∈ (phase3 players teams assigned).1, t.targetSize ≤ t.players.length
  | [], _, _ => fun p hp => absurd hp (List.not_mem_nil p)
  | player :: rest, teams, assigned => by
    intro p hp
    rw [phase3]
    by_cases he : (teamsWithSpaceSorted teams).isEmpty
    · rw [if_pos he]
      exact .inr (teamsWithSpaceSorted_nil_full (List.isEmpty_iff.mp he))
    · rw [if_neg he]
      have hne : teamsWithSpaceSorted teams ≠ [] := fun hE => by simp [hE] at he
      rcases List.mem_cons.mp hp with rfl | hmem
      · cases hslot : phase3FindSlot teams (teamsWithSpaceSorted teams) with
        | some ic =>
          dsimp only
          left
          obtain ⟨hmem2, _⟩ := phase3FindSlot_spec teams _ hslot
          obtain ⟨hlt, _⟩ := mem_teamsWithSpaceSorted hmem2
          obtain ⟨u, hu⟩ : ∃ u, teams[ic.1]? = some u := by
            rw [List.getElem?_eq_getElem hlt]; exact ⟨_, rfl⟩
          refine phase3_ids_mono rest _ _ _ ?_
          rw [updateAt_eq_set_of_getElem? hu]
          exact (teamPlayersIds_set_perm teams ic.1 hu
            (pushLineAt_players ic.2 p u)).symm.mem_iff.mp (List.mem_cons_self _ _)
        | none =>
          dsimp only
          left
          obtain ⟨hlt, _⟩ := mem_teamsWithSpaceSorted (headD_mem_of_ne_nil hne)
          obtain ⟨u, hu⟩ : ∃ u, teams[(teamsWithSpaceSorted teams).headD 0]? = some u := by
            rw [List.getElem?_eq_getElem hlt]; exact ⟨_, rfl⟩
          refine phase3_ids_mono rest _ _ _ ?_
          rw [updateAt_eq_set_of_getElem? hu]
          exact (teamPlayersIds_set_perm teams _ hu rfl).symm.mem_iff.mp
            (List.mem_cons_self _ _)
      · cases hslot : phase3FindSlot teams (teamsWithSpaceSorted teams) with
        | some ic =>
          dsimp only
          exact phase3_place_or_full rest _ _ p hmem
        | none =>
          dsimp only
          exact phase3_place_or_full rest _ _ p hmem

lemma phase3_gk_countP : ∀ (players : List Player) (teams : List Team) (assigned : List Nat),
    (phase3 players teams assigned).1.countP (fun t => t.formation.goalkeeper.isSome) =
      teams.countP (fun t => t.formation.goalkeeper.isSome)
  | [], _, _ => rfl
  | player :: rest, teams, assigned => by
    rw [phase3]
    by_cases he : (teamsWithSpaceSorted teams).isEmpty
    · rw [if_pos he]
    · rw [if_neg he]
      have hne : teamsWithSpaceSorted teams ≠ [] := fun hE => by simp [hE] at he
      cases hslot : phase3FindSlot teams (teamsWithSpaceSorted teams) with
      | some ic =>
        dsimp only
        rw [phase3_gk_countP rest]
        obtain ⟨hmem2, _⟩ := phase3FindSlot_spec teams _ hslot
        obtain ⟨hlt, _⟩ := mem_teamsWithSpaceSorted hmem2
        obtain ⟨u, hu⟩ : ∃ u, teams[ic.1]? = some u := by
          rw [List.getElem?_eq_getElem hlt]; exact ⟨_, rfl⟩
        rw [updateAt_eq_set_of_getElem? hu]
        exact countP_set_congr _ teams ic.1 hu (by simp [pushLineAt_goalkeeper])
      | none =>
        dsimp only
        rw [phase3_gk_countP rest]
        obtain ⟨hlt, _⟩ := mem_teamsWithSpaceSorted (headD_mem_of_ne_nil hne)
        obtain ⟨u, hu⟩ : ∃ u, teams[(teamsWithSpaceSorted teams).headD 0]? = some u := by
          rw [List.getElem?_eq_getElem hlt]; exact ⟨_, rfl⟩
        rw [updateAt_eq_set_of_getElem? hu]
        exact countP_set_congr _ teams _ hu rfl

/-! ## Size planner (claim C3) -/

lemma sum_map_range_base_ite (n q r : Nat) :
    ((List.range n).map (fun i => q + if i < r then 1 else 0)).sum = n * q + min r n := by
  induction n with
  | zero => simp
  | succ n ih =>
    rw [List.range_succ, List.map_append, List.sum_append, ih]
    by_cases h : n < r <;> simp [h, Nat.succ_mul] <;> omega

lemma calculateTeamSizes_getD {totalPlayers numTeams i : Nat} (hi : i < numTeams) :
    (calculateTeamSizes totalPlayers numTeams).getD i 0 =
      totalPlayers / numTeams + (if i < totalPlayers % numTeams then 1 else 0) := by
  simp [calculateTeamSizes, List.getD_eq_getElem?_getD, List.getElem?_map,
    List.getElem?_range hi]

/-- C3: `calculateTeamSizes` returns exactly `numTeams` sizes; the first
`totalPlayers % numTeams` teams (in index order) get `⌊totalPlayers/numTeams⌋ + 1`
and the rest get `⌊totalPlayers/numTeams⌋`; the sizes sum to `totalPlayers`; any
two sizes differ by at most 1; and the two spec examples hold. -/
theorem calculateTeamSizes_spec (totalPlayers numTeams : Nat) (h : 1 ≤ numTeams) :
    (calculateTeamSizes totalPlayers numTeams).length = numTeams ∧
    (∀ i, i < numTeams → (calculateTeamSizes totalPlayers numTeams).getD i 0 =
      totalPlayers / numTeams + (if i < totalPlayers % numTeams then 1 else 0)) ∧
    (calculateTeamSizes totalPlayers numTeams).sum = totalPlayers ∧
    (∀ i j, i < numTeams → j < numTeams →
      (calculateTeamSizes totalPlayers numTeams).getD i 0 ≤
        (calculateTeamSizes totalPlayers numTeams).getD j 0 + 1) ∧
    calculateTeamSizes 9 3 = [3, 3, 3] ∧ calculateTeamSizes 23 3 = [8, 8, 7] := by
  refine ⟨by simp [calculateTeamSizes], fun i hi => calculateTeamSizes_getD hi, ?_,
    fun i j hi hj => ?_, by decide, by decide⟩
  · show ((List.range numTeams).map
      (fun i => totalPlayers / numTeams + if i < totalPlayers % numTeams then 1 else 0)).sum
      = totalPlayers
    rw [sum_map_range_base_ite]
    have h1 := Nat.div_add_mod totalPlayers numTeams
    have h2 := Nat.mod_lt totalPlayers (show 0 < numTeams from h)
    omega
  · rw [calculateTeamSizes_getD hi, calculateTeamSizes_getD hj]
    by_cases h1 : i < totalPlayers % numTeams <;>
      by_cases h2 : j < totalPlayers % numTeams <;> (simp [h1, h2]; try omega)

/-- Witness for C3 at `totalPlayers = 23`, `numTeams = 3`. -/
theorem calculateTeamSizes_spec_witness :
    (calculateTeamSizes 23 3).length = 3 ∧
    (∀ i, i < 3 → (calculateTeamSizes 23 3).getD i 0 =
      23 / 3 + (if i < 23 % 3 then 1 else 0)) ∧
    (calculateTeamSizes 23 3).sum = 23 ∧
    (∀ i j, i < 3 → j < 3 →
      (calculateTeamSizes 23 3).getD i 0 ≤ (calculateTeamSizes 23 3).getD j 0 + 1) ∧
    calculateTeamSizes 9 3 = [3, 3, 3] ∧ calculateTeamSizes 23 3 = [8, 8, 7] :=
  calculateTeamSizes_spec 23 3 (by decide)

/-! ## Rating resolution (claims C7, C8) -/

/-- C7: `getPlayerOverallRating` prefers the stat block matching
`preferredPosition` when both are present, falls back to the single present
block, defaults to 75 when neither exists; Example C yields 90. -/
theorem getPlayerOverallRating_spec :
    (∀ p gk outfield, p.gkStats = some gk → p.outfieldStats = some outfield →
      getPlayerOverallRating p =
        if p.preferredPosition = "GK" then gk.overall else outfield.overall) ∧
    (∀ p gk, p.gkStats = some gk → p.outfieldStats = none →
      getPlayerOverallRating p = gk.overall) ∧
    (∀ p outfield, p.gkStats = none → p.outfieldStats = some outfield →
      getPlayerOverallRating p = outfield.overall) ∧
    (∀ p, p.gkStats = none → p.outfieldStats = none → getPlayerOverallRating p = 75) ∧
    getPlayerOverallRating exampleCPlayer = 90 := by
  refine ⟨fun p gk outfield h1 h2 => ?_, fun p gk h1 h2 => ?_,
    fun p outfield h1 h2 => ?_, fun p h1 h2 => ?_, by decide⟩ <;>
    simp [getPlayerOverallRating, h1, h2]

/-- Witness for C7: the dual-role Example C player, both stat blocks present. -/
theorem getPlayerOverallRating_spec_witness :
    getPlayerOverallRating exampleCPlayer =
      if exampleCPlayer.preferredPosition = "GK" then (90 : Int) else 78 :=
  getPlayerOverallRating_spec.1 exampleCPlayer ⟨90⟩ ⟨78⟩ rfl rfl

/-- C8: `getPlayerRatingForPosition` uses GK stats for the `'GK'` role when
present; otherwise uses outfield stats whenever they exist regardless of role;
applies the `max (overall - 20) 40` penalty only to GK-only players in a non-GK
role; defaults to 75; and Example C forced into `'ST'`/`'ATT'` yields 78. -/
theorem getPlayerRatingForPosition_spec :
    (∀ p gk, p.gkStats = some gk → getPlayerRatingForPosition p "GK" = gk.overall) ∧
    (∀ p outfield role, p.outfieldStats = some outfield → role ≠ "GK" →
      getPlayerRatingForPosition p role = outfield.overall) ∧
    (∀ p outfield role, p.gkStats = none → p.outfieldStats = some outfield →
      getPlayerRatingForPosition p role = outfield.overall) ∧
    (∀ p gk role, p.gkStats = some gk → p.outfieldStats = none → role ≠ "GK" →
      getPlayerRatingForPosition p role = max (gk.overall - 20) 40) ∧
    (∀ p role, p.gkStats = none → p.outfieldStats = none →
      getPlayerRatingForPosition p role = 75) ∧
    getPlayerRatingForPosition exampleCPlayer "ST" = 78 ∧
    getPlayerRatingForPosition exampleCPlayer "ATT" = 78 := by
  refine ⟨fun p gk h1 => ?_, fun p outfield role h1 h2 => ?_,
    fun p outfield role h1 h2 => ?_, fun p gk role h1 h2 h3 => ?_,
    fun p role h1 h2 => ?_, by decide, by decide⟩
  · cases h2 : p.outfieldStats <;> simp [getPlayerRatingForPosition, h1, h2]
  · cases h3 : p.gkStats <;> simp [getPlayerRatingForPosition, h1, h2, h3]
  · simp [getPlayerRatingForPosition, h1, h2]
  · simp [getPlayerRatingForPosition, h1, h2, h3]
  · simp [getPlayerRatingForPosition, h1, h2]

/-- Witness for C8: the Example C player assigned to `'ST'` scores with the
outfield block (78), not the penalised GK value. -/
theorem getPlayerRatingForPosition_spec_witness :
    getPlayerRatingForPosition exampleCPlayer "ST" = (78 : Int) :=
  getPlayerRatingForPosition_spec.2.1 exampleCPlayer ⟨78⟩ "ST" rfl (by decide)

/-! ## Statistics-pass lemmas -/

lemma calculateTeamStatistics_players (t : Team) :
    (calculateTeamStatistics t).players = t.players.map stripTemp := rfl

lemma calculateTeamStatistics_targetSize (t : Team) :
    (calculateTeamStatistics t).targetSize = t.targetSize := rfl

lemma calculateTeamStatistics_goalkeeper (t : Team) :
    (calculateTeamStatistics t).formation.goalkeeper =
      t.formation.goalkeeper.map stripTemp := rfl

lemma teamPlayersIds_map_stats : ∀ (teams : List Team),
    teamPlayersIds (teams.map calculateTeamStatistics) = teamPlayersIds teams
  | [] => rfl
  | t :: ts => by
    rw [List.map_cons, teamPlayersIds_cons, teamPlayersIds_cons,
      teamPlayersIds_map_stats ts, calculateTeamStatistics_players, List.map_map]
    rfl

lemma createBalanced_eq (rng : Rng) (numTeams : Nat) (targetTeamSizes : List Nat)
    (playersToUse : List Player) :
    createBalancedTeamsWithSizeControl rng numTeams targetTeamSizes playersToUse =
      (phase3Result rng numTeams targetTeamSizes playersToUse).1.map
        calculateTeamStatistics := rfl

/-! ## Concrete oracles for witnesses and counterexamples -/

/-- Identity shuffle oracle: the (reachable) Fisher–Yates run that leaves every
array unchanged, starting the snake draft at team 0 moving forward. -/
def idRng : Rng :=
  { startTeam := 0, startDirPositive := true,
    shufPrefGK := id, shufAltGK := id, shufTeamOrder := id,
    shufDefenders := id, shufMidfielders := id, shufForwards := id,
    shufPool := id, shufLeftover := id }

/-- Oracle for the C2 counterexample: the team-order shuffle reverses the array
(a reachable Fisher–Yates outcome); every other shuffle is the identity. -/
def c2Rng : Rng := { idRng with shufTeamOrder := List.reverse }

/-- Two goalkeeper-only players: enough to give the size-0 third team a keeper
when the shuffled team order lists it first. -/
def c2Players : List Player :=
  [{ id := 1, name := "A", positions := ["GK"], preferredPosition := "GK",
     gkStats := some ⟨80⟩ },
   { id := 2, name := "B", positions := ["GK"], preferredPosition := "GK",
     gkStats := some ⟨70⟩ }]

/-! ## Size cap (claim C2) -/

/-- C2 counterexample: with 2 GK-only players and 3 teams (target sizes
`[1, 1, 0]`), a team-order shuffle that lists the size-0 team first hands it a
goalkeeper in phase 1 — which never consults `targetSize` — so after full
assignment that team has 1 player against a target of 0. -/
theorem sizeCap_counterexample :
    ¬ (∀ t ∈ createBalancedTeamsWithSizeControl c2Rng 3 (calculateTeamSizes 2 3) c2Players,
        t.players.length ≤ t.targetSize) := by decide

/-- C2 (amended): after full assignment every team satisfies
`players.length ≤ max targetSize 1`, and every team with `targetSize ≥ 1`
satisfies the original cap `players.length ≤ targetSize`.  The single permitted
excess player is a phase-1 goalkeeper: the goalkeeper phase ignores `targetSize`,
so a team whose target size is 0 can still receive one goalkeeper there; phases 2
and 3 never exceed the target. -/
theorem sizeCap_amended (rng : Rng) (numTeams : Nat) (targetTeamSizes : List Nat)
    (playersToUse : List Player)
    (horder : ∀ l : List Nat, (rng.shufTeamOrder l).Perm l) :
    ∀ t ∈ createBalancedTeamsWithSizeControl rng numTeams targetTeamSizes playersToUse,
      t.players.length ≤ max t.targetSize 1 ∧
      (1 ≤ t.targetSize → t.players.length ≤ t.targetSize) := by
  have hQ1 : ∀ t ∈ (stateAfterPhase1 rng numTeams targetTeamSizes playersToUse).teams,
      t.players.length ≤ 1 := by
    refine phase1_team_bound _ _ ?_ ?_ ?_
    · exact (map_snd_zip_sublist _ _).nodup ((horder _).symm.nodup (List.nodup_range _))
    · intro t ht
      have := (mem_initTeams ht).1
      simp [this]
    · intro j _ u hu
      exact (mem_initTeams (List.getElem?_mem hu)).1
  have hQ2 : ∀ t ∈ (stateAfterPhase2 rng numTeams targetTeamSizes playersToUse).teams,
      t.players.length ≤ max t.targetSize 1 := by
    refine phase2_teams_pred _ ?_ numTeams _ _ ?_
    · intro item team tp htry hlt _
      obtain ⟨t', p⟩ := tp
      have hspec := tryAssignToTeam_spec htry
      have h1 : t'.players.length = team.players.length + 1 := by
        rw [hspec.1]; simp
      have h2 : t'.targetSize = team.targetSize := hspec.2.2.2.1
      show t'.players.length ≤ max t'.targetSize 1
      omega
    · intro t ht
      have := hQ1 t ht
      omega
  have hQ3 : ∀ t ∈ (phase3Result rng numTeams targetTeamSizes playersToUse).1,
      t.players.length ≤ max t.targetSize 1 := by
    refine phase3_teams_pred _ ?_ ?_ _ _ _ hQ2
    · intro code p t hspace _ _
      have h1 : (pushLineAt code p t).players.length = t.players.length + 1 := by
        rw [pushLineAt_players]; simp
      have h2 := pushLineAt_targetSize code p t
      omega
    · intro p t hspace _
      show (t.players ++ [p]).length ≤ max t.targetSize 1
      simp
      omega
  intro t ht
  rw [createBalanced_eq] at ht
  obtain ⟨u, hu, rfl⟩ := List.mem_map.mp ht
  have hle := hQ3 u hu
  constructor
  · show (u.players.map stripTemp).length ≤ max u.targetSize 1
    simpa using hle
  · intro hts
    show (u.players.map stripTemp).length ≤ u.targetSize
    have hts' : 1 ≤ u.targetSize := hts
    simp only [List.length_map]
    omega

/-- Witness for the amended C2 at a concrete run: identity oracles, 3 players,
2 teams. -/
theorem sizeCap_amended_witness :
    ((createBalancedTeamsWithSizeControl idRng 2 (calculateTeamSizes 3 2)
        c2Players).getD 0 default).players.length ≤
      max ((createBalancedTeamsWithSizeControl idRng 2 (calculateTeamSizes 3 2)
        c2Players).getD 0 default).targetSize 1 :=
  (sizeCap_amended idRng 2 (calculateTeamSizes 3 2) c2Players (fun l => List.Perm.refl l)
    _ (by decide)).1

/-! ## Rating aggregation (claim C6) -/

/-- C6: in every returned team the transient jitter field is stripped from every
player (in the players list, the goalkeeper slot and all formation lines),
`totalRating` is the sum of the members' overall ratings, and the average (in
tenths) is the rounded quotient, `0` for an empty team. -/
theorem ratingAggregation_spec (rng : Rng) (numTeams : Nat) (targetTeamSizes : List Nat)
    (playersToUse : List Player) :
    ∀ t ∈ createBalancedTeamsWithSizeControl rng numTeams targetTeamSizes playersToUse,
      (∀ p ∈ t.players, p.tempRatingAdjustment = none) ∧
      (∀ p, t.formation.goalkeeper = some p → p.tempRatingAdjustment = none) ∧
      (∀ p ∈ t.formation.defenders ++ t.formation.midfielders ++ t.formation.forwards,
        p.tempRatingAdjustment = none) ∧
      t.totalRating = (t.players.map getPlayerOverallRating).sum ∧
      t.averageRatingTenths =
        (if 0 < t.players.length then roundHalfUpTenths t.totalRating t.players.length
         else 0) := by
  intro t ht
  rw [createBalanced_eq] at ht
  obtain ⟨u, _, rfl⟩ := List.mem_map.mp ht
  refine ⟨?_, ?_, ?_, rfl, rfl⟩
  · intro p hp
    rw [calculateTeamStatistics_players] at hp
    obtain ⟨q, _, rfl⟩ := List.mem_map.mp hp
    rfl
  · intro p hp
    rw [calculateTeamStatistics_goalkeeper] at hp
    obtain ⟨q, _, rfl⟩ := Option.map_eq_some'.mp hp
    rfl
  · intro p hp
    have hp' : p ∈ u.formation.defenders.map stripTemp ++
        u.formation.midfielders.map stripTemp ++ u.formation.forwards.map stripTemp := hp
    rcases List.mem_append.mp hp' with h1 | h3
    · rcases List.mem_append.mp h1 with h1a | h1b
      · obtain ⟨q, _, rfl⟩ := List.mem_map.mp h1a
        rfl
      · obtain ⟨q, _, rfl⟩ := List.mem_map.mp h1b
        rfl
    · obtain ⟨q, _, rfl⟩ := List.mem_map.mp h3
      rfl

/-- Witness for C6 at a concrete run. -/
theorem ratingAggregation_spec_witness :
    (((createBalancedTeamsWithSizeControl idRng 2 (calculateTeamSizes 2 2)
        c2Players).getD 0 default).totalRating =
      (((createBalancedTeamsWithSizeControl idRng 2 (calculateTeamSizes 2 2)
        c2Players).getD 0 default).players.map getPlayerOverallRating).sum) :=
  (ratingAggregation_spec idRng 2 (calculateTeamSizes 2 2) c2Players _ (by decide)).2.2.2.1

/-! ## Snake-draft cursor safety (claim C10) -/

lemma phase2TryTeams_oob_inv (n : Nat) (item : PoolItem) :
    ∀ (fuel : Nat) (st : GenState), st.teams.length = n → st.currentTeam < n →
      (phase2TryTeams n item fuel st).1.teams.length = n ∧
      (phase2TryTeams n item fuel st).1.currentTeam < n ∧
      (phase2TryTeams n item fuel st).1.oobLookup = st.oobLookup := by
  intro fuel
  induction fuel with
  | zero => intro st h1 h2; exact ⟨h1, h2, rfl⟩
  | succ fuel ih =>
    intro st h1 h2
    rw [phase2TryTeams]
    have hlt : st.currentTeam < st.teams.length := by omega
    rw [List.getElem?_eq_getElem hlt]
    dsimp only
    by_cases hfull : st.teams[st.currentTeam].targetSize ≤
        st.teams[st.currentTeam].players.length
    · rw [if_pos hfull]
      obtain ⟨ha, hb, hc⟩ := ih
        { st with currentTeam := (snakeAdvance n st.currentTeam st.direction).1
                  direction := (snakeAdvance n st.currentTeam st.direction).2 }
        h1 (snakeAdvance_fst_lt st.direction h2)
      exact ⟨ha, hb, hc⟩
    · rw [if_neg hfull]
      cases htry : tryAssignToTeam item st.teams[st.currentTeam] with
      | some tp =>
        dsimp only
        refine ⟨?_, h2, rfl⟩
        rw [List.length_set]
        exact h1
      | none =>
        dsimp only
        obtain ⟨ha, hb, hc⟩ := ih
          { st with currentTeam := (snakeAdvance n st.currentTeam st.direction).1
                    direction := (snakeAdvance n st.currentTeam st.direction).2 }
          h1 (snakeAdvance_fst_lt st.direction h2)
        exact ⟨ha, hb, hc⟩

lemma phase2Step_oob_inv (n : Nat) (st : GenState) (item : PoolItem)
    (h1 : st.teams.length = n) (h2 : st.currentTeam < n) :
    (phase2Step n st item).teams.length = n ∧ (phase2Step n st item).currentTeam < n ∧
      (phase2Step n st item).oobLookup = st.oobLookup := by
  unfold phase2Step
  by_cases hc : st.assignedPlayers.contains item.player.id
  · rw [if_pos hc]; exact ⟨h1, h2, rfl⟩
  · rw [if_neg hc]
    obtain ⟨ha, hb, hoob⟩ := phase2TryTeams_oob_inv n item n st h1 h2
    by_cases hb2 : (phase2TryTeams n item n st).2 = true
    · rw [if_pos hb2]
      exact ⟨ha, snakeAdvance_fst_lt _ hb, hoob⟩
    · rw [if_neg hb2]
      exact ⟨ha, hb, hoob⟩

lemma phase2_oob_inv (n : Nat) : ∀ (pool : List PoolItem) (st : GenState),
    st.teams.length = n → st.currentTeam < n →
    (phase2 n pool st).teams.length = n ∧ (phase2 n pool st).currentTeam < n ∧
      (phase2 n pool st).oobLookup = st.oobLookup
  | [], _, h1, h2 => ⟨h1, h2, rfl⟩
  | item :: pool, st, h1, h2 => by
    rw [phase2_cons]
    obtain ⟨ha, hb, hoob⟩ := phase2Step_oob_inv n st item h1 h2
    obtain ⟨hx, hy, hz⟩ := phase2_oob_inv n pool _ ha hb
    exact ⟨hx, hy, hz.trans hoob⟩

/-- C10: the snake-draft cursor stays inside `[0, numTeams)` — the clamp-and-flip
advance maps an in-range cursor to an in-range cursor and keeps the direction in
`{+1, -1}` — and consequently a full run started at an in-range cursor (as
`Math.floor(Math.random() * numTeams)` guarantees) never performs an
out-of-bounds `teams[currentTeam]` lookup in phase 2, including `numTeams = 1`. -/
theorem snakeDraft_cursor_safe :
    (∀ (numTeams cur : Nat) (dir : Int), cur < numTeams →
      (snakeAdvance numTeams cur dir).1 < numTeams) ∧
    (∀ (numTeams cur : Nat) (dir : Int), dir = 1 ∨ dir = -1 →
      (snakeAdvance numTeams cur dir).2 = 1 ∨ (snakeAdvance numTeams cur dir).2 = -1) ∧
    (∀ (rng : Rng) (numTeams : Nat) (targetTeamSizes : List Nat)
      (playersToUse : List Player), rng.startTeam < numTeams →
      (runPhases rng numTeams targetTeamSizes playersToUse).oobLookup = false) := by
  refine ⟨fun _ _ dir h => snakeAdvance_fst_lt dir h,
    fun _ _ _ h => snakeAdvance_snd h, ?_⟩
  intro rng n sizes players hstart
  show (stateAfterPhase2 rng n sizes players).oobLookup = false
  have hlen1 : (stateAfterPhase1 rng n sizes players).teams.length = n := by
    show (phase1 (initialState rng n sizes) _).teams.length = n
    rw [phase1_teams_length]
    exact initTeams_length n sizes
  have hcur1 : (stateAfterPhase1 rng n sizes players).currentTeam = rng.startTeam :=
    (phase1_cursor _ _).1
  have hoob1 : (stateAfterPhase1 rng n sizes players).oobLookup = false :=
    (phase1_cursor _ _).2.2
  obtain ⟨_, _, hz⟩ := phase2_oob_inv n
    (buildPool rng n (remainingAfter (sortedPlayersOf players)
      (stateAfterPhase1 rng n sizes players).assignedPlayers))
    (stateAfterPhase1 rng n sizes players) hlen1 (by rw [hcur1]; exact hstart)
  exact hz.trans hoob1

/-- Witness for C10 at `numTeams = 1` (the degenerate single-team case). -/
theorem snakeDraft_cursor_safe_witness :
    (snakeAdvance 1 0 1).1 < 1 ∧
    ((snakeAdvance 1 0 (-1)).2 = 1 ∨ (snakeAdvance 1 0 (-1)).2 = -1) ∧
    (runPhases idRng 1 (calculateTeamSizes 2 1) c2Players).oobLookup = false :=
  ⟨snakeDraft_cursor_safe.1 1 0 1 (by decide),
   snakeDraft_cursor_safe.2.1 1 0 (-1) (.inr rfl),
   snakeDraft_cursor_safe.2.2 idRng 1 (calculateTeamSizes 2 1) c2Players (by decide)⟩

/-! ## No double assignment (claim C1) -/

lemma phase3_update_IdsInv {teams : List Team} {assigned : List Nat} (player : Player)
    {i : Nat} {f : Team → Team} (hi : i < teams.length)
    (hf : ∀ t, (f t).players = t.players ++ [player])
    (h : IdsInv teams assigned) (hfree : player.id ∉ assigned) :
    IdsInv (updateAt teams i f) (player.id :: assigned) := by
  obtain ⟨u, hu⟩ : ∃ u, teams[i]? = some u := by
    rw [List.getElem?_eq_getElem hi]; exact ⟨_, rfl⟩
  rw [updateAt_eq_set_of_getElem? hu]
  have hperm := teamPlayersIds_set_perm teams i hu (hf u)
  constructor
  · exact hperm.symm.nodup (List.nodup_cons.mpr ⟨fun hm => hfree (h.2 _ hm), h.1⟩)
  · intro a ha
    rcases List.mem_cons.mp (hperm.mem_iff.mp ha) with rfl | hm
    · exact List.mem_cons_self _ _
    · exact List.mem_cons_of_mem _ (h.2 a hm)

lemma phase3_IdsInv : ∀ (players : List Player) (teams : List Team) (assigned : List Nat),
    IdsInv teams assigned →
    ((players.map (fun p => p.id)).Nodup) →
    (∀ p ∈ players, p.id ∉ assigned) →
    IdsInv (phase3 players teams assigned).1 (phase3 players teams assigned).2
  | [], _, _, h, _, _ => h
  | player :: rest, teams, assigned, h, hnd, hfree => by
    rw [phase3]
    by_cases he : (teamsWithSpaceSorted teams).isEmpty
    · rw [if_pos he]; exact h
    · rw [if_neg he]
      have hne : teamsWithSpaceSorted teams ≠ [] := fun hE => by simp [hE] at he
      have hrest_free : ∀ q ∈ rest, q.id ∉ player.id :: assigned := by
        intro q hq hmem
        rcases List.mem_cons.mp hmem with heq | hmem2
        · refine absurd ?_ (List.nodup_cons.mp hnd).1
          show player.id ∈ rest.map (fun p => p.id)
          rw [← heq]
          exact List.mem_map_of_mem _ hq
        · exact hfree q (List.mem_cons_of_mem player hq) hmem2
      cases hslot : phase3FindSlot teams (teamsWithSpaceSorted teams) with
      | some ic =>
        dsimp only
        refine phase3_IdsInv rest _ _ ?_ (List.nodup_cons.mp hnd).2 hrest_free
        obtain ⟨hmem2, _⟩ := phase3FindSlot_spec teams _ hslot
        obtain ⟨hlt, _⟩ := mem_teamsWithSpaceSorted hmem2
        exact phase3_update_IdsInv player hlt (pushLineAt_players ic.2 player) h
          (hfree player (List.mem_cons_self player rest))
      | none =>
        dsimp only
        refine phase3_IdsInv rest _ _ ?_ (List.nodup_cons.mp hnd).2 hrest_free
        obtain ⟨hlt, _⟩ := mem_teamsWithSpaceSorted (headD_mem_of_ne_nil hne)
        exact phase3_update_IdsInv player hlt (fun t => rfl) h
          (hfree player (List.mem_cons_self player rest))

lemma mem_of_mem_remainingAfter {sorted : List Player} {assigned : List Nat} {p : Player}
    (h : p ∈ remainingAfter sorted assigned) : p ∈ sorted :=
  (List.mem_filter.mp h).1

lemma not_mem_of_mem_remainingAfter {sorted : List Player} {assigned : List Nat}
    {p : Player} (h : p ∈ remainingAfter sorted assigned) : p.id ∉ assigned := by
  obtain ⟨_, h2⟩ := List.mem_filter.mp h
  rw [Bool.not_eq_true'] at h2
  intro hmem
  have helem : List.elem p.id assigned = true := List.elem_iff.mpr hmem
  have h2' : List.elem p.id assigned = false := h2
  rw [h2'] at helem
  exact Bool.false_ne_true helem

lemma remainingAfter_sublist (sorted : List Player) (assigned : List Nat) :
    (remainingAfter sorted assigned).Sublist sorted :=
  List.filter_sublist sorted

lemma zip_fst_ids_nodup {l1 : List Player} {l2 : List Nat}
    (h : (l1.map (fun p => p.id)).Nodup) :
    ((l1.zip l2).map (fun pr => pr.1.id)).Nodup := by
  have heq : (l1.zip l2).map (fun pr => pr.1.id) =
      ((l1.zip l2).map Prod.fst).map (fun p => p.id) := by
    rw [List.map_map]
    rfl
  rw [heq]
  exact ((map_fst_zip_sublist l1 l2).map _).nodup h

lemma sortedPlayersOf_ids_nodup {playersToUse : List Player}
    (hids : (playersToUse.map (fun p => p.id)).Nodup) :
    ((sortedPlayersOf playersToUse).map (fun p => p.id)).Nodup := by
  unfold sortedPlayersOf
  exact ((List.perm_insertionSort _ _).map _).symm.nodup hids

lemma gkConcat_perm (rng : Rng) (playersToUse : List Player) (assigned : List Nat)
    (hpref : ∀ l, (rng.shufPrefGK l).Perm l) (halt : ∀ l, (rng.shufAltGK l).Perm l) :
    (rng.shufPrefGK ((gkCandidates (sortedPlayersOf playersToUse) assigned).filter
        (fun p => p.preferredPosition == "GK")) ++
     rng.shufAltGK ((gkCandidates (sortedPlayersOf playersToUse) assigned).filter
        (fun p => p.preferredPosition != "GK"))).Perm
      (gkCandidates (sortedPlayersOf playersToUse) assigned) :=
  ((hpref _).append (halt _)).trans
    (List.filter_append_perm (fun p : Player => p.preferredPosition == "GK") _)

/-- C1: no double assignment — over any run whose shuffles are permutations, on
input players with pairwise distinct ids, every id appears at most once across
all returned teams (hence in at most one team's players list). -/
theorem noDoubleAssignment (rng : Rng) (numTeams : Nat) (targetTeamSizes : List Nat)
    (playersToUse : List Player)
    (hpref : ∀ l, (rng.shufPrefGK l).Perm l)
    (halt : ∀ l, (rng.shufAltGK l).Perm l)
    (hleft : ∀ l, (rng.shufLeftover l).Perm l)
    (hids : (playersToUse.map (fun p => p.id)).Nodup) :
    (teamPlayersIds (createBalancedTeamsWithSizeControl rng numTeams targetTeamSizes
      playersToUse)).Nodup := by
  rw [createBalanced_eq, teamPlayersIds_map_stats]
  have hsorted := sortedPlayersOf_ids_nodup hids
  -- phase 1
  have hInv0 : IdsInv (initialState rng numTeams targetTeamSizes).teams
      (initialState rng numTeams targetTeamSizes).assignedPlayers := by
    constructor
    · show (teamPlayersIds (initTeams numTeams targetTeamSizes)).Nodup
      rw [teamPlayersIds_initTeams]
      exact List.nodup_nil
    · intro a ha
      rw [show (initialState rng numTeams targetTeamSizes).teams
          = initTeams numTeams targetTeamSizes from rfl, teamPlayersIds_initTeams] at ha
      exact absurd ha (List.not_mem_nil a)
  have hgkperm := gkConcat_perm rng playersToUse
    (initialState rng numTeams targetTeamSizes).assignedPlayers hpref halt
  have hgkids : (((rng.shufPrefGK ((gkCandidates (sortedPlayersOf playersToUse)
        (initialState rng numTeams targetTeamSizes).assignedPlayers).filter
        (fun p => p.preferredPosition == "GK")) ++
      rng.shufAltGK ((gkCandidates (sortedPlayersOf playersToUse)
        (initialState rng numTeams targetTeamSizes).assignedPlayers).filter
        (fun p => p.preferredPosition != "GK")))).map (fun p => p.id)).Nodup := by
    refine (hgkperm.map _).symm.nodup ?_
    exact ((List.filter_sublist _).map _).nodup hsorted
  have hpairids : ((gkPairs rng numTeams (sortedPlayersOf playersToUse)
      (initialState rng numTeams targetTeamSizes).assignedPlayers).map
        (fun pr => pr.1.id)).Nodup := zip_fst_ids_nodup hgkids
  have hInv1 := phase1_IdsInv _ _ hInv0 hpairids
    (by intro pr _ hmem; exact (List.not_mem_nil pr.1.id) hmem)
  -- phase 2
  have hInv2 := phase2_IdsInv numTeams
    (buildPool rng numTeams (remainingAfter (sortedPlayersOf playersToUse)
      (stateAfterPhase1 rng numTeams targetTeamSizes playersToUse).assignedPlayers))
    (stateAfterPhase1 rng numTeams targetTeamSizes playersToUse) hInv1
  -- phase 3
  have hInv3 := phase3_IdsInv
    (rng.shufLeftover (remainingAfter (sortedPlayersOf playersToUse)
      (stateAfterPhase2 rng numTeams targetTeamSizes playersToUse).assignedPlayers))
    (stateAfterPhase2 rng numTeams targetTeamSizes playersToUse).teams
    (stateAfterPhase2 rng numTeams targetTeamSizes playersToUse).assignedPlayers
    hInv2 ?_ ?_
  · exact hInv3.1
  · refine ((hleft _).map _).symm.nodup ?_
    exact ((remainingAfter_sublist _ _).map _).nodup hsorted
  · intro p hp
    exact not_mem_of_mem_remainingAfter ((hleft _).mem_iff.mp hp)

/-- Witness for C1 at a concrete run with identity shuffles. -/
theorem noDoubleAssignment_witness :
    (teamPlayersIds (createBalancedTeamsWithSizeControl idRng 2 (calculateTeamSizes 2 2)
      c2Players)).Nodup :=
  noDoubleAssignment idRng 2 (calculateTeamSizes 2 2) c2Players
    (fun l => List.Perm.refl l) (fun l => List.Perm.refl l) (fun l => List.Perm.refl l)
    (by decide)

/-! ## Leftover sweep (claim C9) -/

/-- C9: no player is dropped at pool assembly — every input player either appears
in the returned teams or every returned team has exhausted its size budget (the
only case in which the phase-3 sweep drops players, and it raises no error); and
the sweep itself places every handed-over player unless all capacity is gone. -/
theorem leftoverSweep_spec (rng : Rng) (numTeams : Nat) (targetTeamSizes : List Nat)
    (playersToUse : List Player)
    (horder : ∀ l : List Nat, (rng.shufTeamOrder l).Perm l)
    (hleft : ∀ l, (rng.shufLeftover l).Perm l) :
    (∀ p ∈ playersToUse,
      p.id ∈ teamPlayersIds (createBalancedTeamsWithSizeControl rng numTeams
        targetTeamSizes playersToUse) ∨
      ∀ t ∈ createBalancedTeamsWithSizeControl rng numTeams targetTeamSizes playersToUse,
        t.targetSize ≤ t.players.length) ∧
    (∀ (leftovers : List Player) (teams : List Team) (assigned : List Nat),
      ∀ p ∈ leftovers,
        p.id ∈ teamPlayersIds (phase3 leftovers teams assigned).1 ∨
        ∀ t ∈ (phase3 leftovers teams assigned).1, t.targetSize ≤ t.players.length) := by
  refine ⟨?_, fun leftovers teams assigned p hp => phase3_place_or_full leftovers teams
    assigned p hp⟩
  intro p hp
  have hsortmem : p ∈ sortedPlayersOf playersToUse := by
    unfold sortedPlayersOf
    exact (List.mem_insertionSort _).mpr hp
  by_cases hassigned :
      p.id ∈ (stateAfterPhase2 rng numTeams targetTeamSizes playersToUse).assignedPlayers
  · left
    have hsub0 : AssignedSub (initialState rng numTeams targetTeamSizes).teams
        (initialState rng numTeams targetTeamSizes).assignedPlayers :=
      fun a ha => absurd ha (List.not_mem_nil a)
    have hsub1 := phase1_AssignedSub
      (gkPairs rng numTeams (sortedPlayersOf playersToUse)
        (initialState rng numTeams targetTeamSizes).assignedPlayers)
      (initialState rng numTeams targetTeamSizes) hsub0 ?_
    · have hsub2 := phase2_AssignedSub numTeams
        (buildPool rng numTeams (remainingAfter (sortedPlayersOf playersToUse)
          (stateAfterPhase1 rng numTeams targetTeamSizes playersToUse).assignedPlayers))
        (stateAfterPhase1 rng numTeams targetTeamSizes playersToUse) hsub1
      have hid2 := hsub2 p.id hassigned
      rw [createBalanced_eq, teamPlayersIds_map_stats]
      exact phase3_ids_mono _ _ _ _ hid2
    · intro pr hpr
      have h1 : pr.2 ∈ rng.shufTeamOrder (List.range numTeams) :=
        (map_snd_zip_sublist _ _).subset (List.mem_map_of_mem Prod.snd hpr)
      have h2 : pr.2 < numTeams := List.mem_range.mp ((horder _).mem_iff.mp h1)
      show pr.2 < (initTeams numTeams targetTeamSizes).length
      rw [initTeams_length]
      exact h2
  · have hfilter : p ∈ remainingAfter (sortedPlayersOf playersToUse)
        (stateAfterPhase2 rng numTeams targetTeamSizes playersToUse).assignedPlayers := by
      refine List.mem_filter.mpr ⟨hsortmem, ?_⟩
      cases hcb : (stateAfterPhase2 rng numTeams targetTeamSizes
          playersToUse).assignedPlayers.contains p.id
      · rw [Bool.not_eq_true']
      · exact absurd (List.elem_iff.mp hcb) hassigned
    have hmemLeft : p ∈ rng.shufLeftover (remainingAfter (sortedPlayersOf playersToUse)
        (stateAfterPhase2 rng numTeams targetTeamSizes playersToUse).assignedPlayers) :=
      (hleft _).mem_iff.mpr hfilter
    rcases phase3_place_or_full _ _
      (stateAfterPhase2 rng numTeams targetTeamSizes playersToUse).assignedPlayers
      p hmemLeft with hplaced | hfull
    · left
      rw [createBalanced_eq, teamPlayersIds_map_stats]
      exact hplaced
    · right
      intro t ht
      rw [createBalanced_eq] at ht
      obtain ⟨u, hu, rfl⟩ := List.mem_map.mp ht
      have hfu := hfull u hu
      show u.targetSize ≤ (u.players.map stripTemp).length
      simpa using hfu

/-- Witness for C9 at a concrete run with identity shuffles. -/
theorem leftoverSweep_spec_witness :
    ({ id := 1, name := "A", positions := ["GK"], preferredPosition := "GK",
       gkStats := some (⟨80⟩ : Stats) } : Player).id ∈
        teamPlayersIds (createBalancedTeamsWithSizeControl idRng 2
          (calculateTeamSizes 2 2) c2Players) ∨
      ∀ t ∈ createBalancedTeamsWithSizeControl idRng 2 (calculateTeamSizes 2 2) c2Players,
        t.targetSize ≤ t.players.length :=
  (leftoverSweep_spec idRng 2 (calculateTeamSizes 2 2) c2Players
    (fun l => List.Perm.refl l) (fun l => List.Perm.refl l)).1 _ (by decide)

/-! ## Formation capacity and goalkeeper exclusivity (claim C4) -/

lemma phase1_teams_pred (P : Team → Prop)
    (hP : ∀ (gk : Player) (t : Team), P t → P (pushGK gk t)) :
    ∀ (pairs : List (Player × Nat)) (st : GenState),
      (∀ t ∈ st.teams, P t) → ∀ t ∈ (phase1 st pairs).teams, P t
  | [], _, h => h
  | pr :: rest, st, h => by
    rw [phase1_cons]
    refine phase1_teams_pred P hP rest _ ?_
    show ∀ t ∈ updateAt st.teams pr.2 _, P t
    refine forall_mem_updateAt h ?_
    intro u hu
    exact hP _ u (h u (List.getElem?_mem hu))

lemma phase3_teams_pred_mem (P : Team → Prop) (W : Player → Prop)
    (hP1 : ∀ (code : Nat) (p : Player) (t : Team), W p →
      t.players.length < t.targetSize → lineRoom code t → P t → P (pushLineAt code p t))
    (hP2 : ∀ (p : Player) (t : Team), W p → t.players.length < t.targetSize → P t →
      P { t with players := t.players ++ [p] }) :
    ∀ (players : List Player) (teams : List Team) (assigned : List Nat),
      (∀ p ∈ players, W p) → (∀ t ∈ teams, P t) →
      ∀ t ∈ (phase3 players teams assigned).1, P t
  | [], _, _, _, h => h
  | player :: rest, teams, assigned, hW, h => by
    rw [phase3]
    by_cases he : (teamsWithSpaceSorted teams).isEmpty
    · rw [if_pos he]; exact h
    · rw [if_neg he]
      have hWrest : ∀ p ∈ rest, W p := fun p hp => hW p (List.mem_cons_of_mem player hp)
      have hWp : W player := hW player (List.mem_cons_self player rest)
      cases hslot : phase3FindSlot teams (teamsWithSpaceSorted teams) with
      | some ic =>
        dsimp only
        refine phase3_teams_pred_mem P W hP1 hP2 rest _ _ hWrest ?_
        obtain ⟨hmem, hroom⟩ := phase3FindSlot_spec teams _ hslot
        obtain ⟨_, hspace⟩ := mem_teamsWithSpaceSorted hmem
        refine forall_mem_updateAt h ?_
        intro u hu
        rw [getD_eq_of_getElem? hu] at hroom hspace
        exact hP1 ic.2 player u hWp hspace hroom (h u (List.getElem?_mem hu))
      | none =>
        dsimp only
        refine phase3_teams_pred_mem P W hP1 hP2 rest _ _ hWrest ?_
        have hne : teamsWithSpaceSorted teams ≠ [] := fun hE => by simp [hE] at he
        obtain ⟨_, hspace⟩ := mem_teamsWithSpaceSorted (headD_mem_of_ne_nil hne)
        refine forall_mem_updateAt h ?_
        intro u hu
        rw [getD_eq_of_getElem? hu] at hspace
        exact hP2 player u hWp hspace (h u (List.getElem?_mem hu))

lemma pushLineAt_zero (p : Player) (t : Team) : pushLineAt 0 p t = pushDefender p t := by
  simp [pushLineAt]

lemma pushLineAt_one (p : Player) (t : Team) : pushLineAt 1 p t = pushMidfielder p t := by
  simp [pushLineAt]

lemma pushLineAt_two (p : Player) (t : Team) : pushLineAt 2 p t = pushForward p t := by
  simp [pushLineAt]

lemma countP_append_singleton_false {pred : Player → Bool} {l : List Player} {p : Player}
    (h : pred p = false) : (l ++ [p]).countP pred = l.countP pred := by
  rw [List.countP_append]
  simp [List.countP_cons, h]

/-- The per-team invariant behind C4: the three formation lines respect their
caps and at most one member is marked as the assigned goalkeeper. -/
def formationCapsOK (t : Team) : Prop :=
  t.formation.defenders.length ≤ 4 ∧ t.formation.midfielders.length ≤ 4 ∧
  t.formation.forwards.length ≤ 3 ∧
  t.players.countP (fun p => p.assignedPosition = some "GK") ≤ 1

lemma stateAfterPhase1_length_le_one (rng : Rng) (numTeams : Nat)
    (targetTeamSizes : List Nat) (playersToUse : List Player)
    (horder : ∀ l : List Nat, (rng.shufTeamOrder l).Perm l) :
    ∀ t ∈ (stateAfterPhase1 rng numTeams targetTeamSizes playersToUse).teams,
      t.players.length ≤ 1 := by
  refine phase1_team_bound _ _ ?_ ?_ ?_
  · exact (map_snd_zip_sublist _ _).nodup ((horder _).symm.nodup (List.nodup_range _))
  · intro t ht
    simp [(mem_initTeams ht).1]
  · intro j _ u hu
    exact (mem_initTeams (List.getElem?_mem hu)).1

/-- C4: every returned team's formation respects the slot caps (at most 4
defenders, 4 midfielders, 3 forwards; the goalkeeper slot is a single field
written at most once — equivalently at most one member carries
`assignedPosition = 'GK'`); excess players reach `team.players` as unslotted
substitutes only, never a capped line. -/
theorem formationCaps_spec (rng : Rng) (numTeams : Nat) (targetTeamSizes : List Nat)
    (playersToUse : List Player)
    (horder : ∀ l : List Nat, (rng.shufTeamOrder l).Perm l)
    (hleft : ∀ l, (rng.shufLeftover l).Perm l)
    (hassign : ∀ p ∈ playersToUse, p.assignedPosition ≠ some "GK") :
    ∀ t ∈ createBalancedTeamsWithSizeControl rng numTeams targetTeamSizes playersToUse,
      t.formation.defenders.length ≤ 4 ∧ t.formation.midfielders.length ≤ 4 ∧
      t.formation.forwards.length ≤ 3 ∧
      t.players.countP (fun p => p.assignedPosition = some "GK") ≤ 1 := by
  have hB1 := stateAfterPhase1_length_le_one rng numTeams targetTeamSizes playersToUse horder
  have hlines1 : ∀ t ∈ (stateAfterPhase1 rng numTeams targetTeamSizes playersToUse).teams,
      t.formation.defenders = [] ∧ t.formation.midfielders = [] ∧
      t.formation.forwards = [] := by
    refine phase1_teams_pred _ (fun gk t ht => ht) _ _ ?_
    intro t ht
    obtain ⟨_, _, h3, h4, h5⟩ := mem_initTeams ht
    exact ⟨h3, h4, h5⟩
  have hQ1 : ∀ t ∈ (stateAfterPhase1 rng numTeams targetTeamSizes playersToUse).teams,
      formationCapsOK t := by
    intro t ht
    obtain ⟨hd, hm, hf⟩ := hlines1 t ht
    exact ⟨by rw [hd]; simp, by rw [hm]; simp, by rw [hf]; simp,
      le_trans (List.countP_le_length _) (hB1 t ht)⟩
  have hQ2 : ∀ t ∈ (stateAfterPhase2 rng numTeams targetTeamSizes playersToUse).teams,
      formationCapsOK t := by
    refine phase2_teams_pred _ ?_ numTeams _ _ hQ1
    intro item team tp htry hlt hQ
    obtain ⟨t', p⟩ := tp
    obtain ⟨hplayers, _, _, _, _, ⟨line, hline, hpdef⟩, hdef, hmid, hfwd⟩ :=
      tryAssignToTeam_spec htry
    have hpred : (fun q : Player => decide (q.assignedPosition = some "GK")) p = false := by
      rw [hpdef]
      apply decide_eq_false
      intro hEq
      have hEq' : some (getBestPositionForFormationLine item.player line) = some "GK" := hEq
      exact getBest_ne_GK item.player line hline (Option.some.inj hEq')
    refine ⟨?_, ?_, ?_, ?_⟩
    · rcases hdef with heq | ⟨h4, heq⟩ <;> rw [heq]
      · exact hQ.1
      · simp only [List.length_append, List.length_cons, List.length_nil]
        omega
    · rcases hmid with heq | ⟨h4, heq⟩ <;> rw [heq]
      · exact hQ.2.1
      · simp only [List.length_append, List.length_cons, List.length_nil]
        omega
    · rcases hfwd with heq | ⟨h4, heq⟩ <;> rw [heq]
      · exact hQ.2.2.1
      · simp only [List.length_append, List.length_cons, List.length_nil]
        omega
    · show (t'.players.countP _) ≤ 1
      rw [hplayers, countP_append_singleton_false hpred]
      exact hQ.2.2.2
  have hW : ∀ p ∈ rng.shufLeftover (remainingAfter (sortedPlayersOf playersToUse)
      (stateAfterPhase2 rng numTeams targetTeamSizes playersToUse).assignedPlayers),
      p.assignedPosition ≠ some "GK" := by
    intro p hp
    have h1 : p ∈ sortedPlayersOf playersToUse :=
      mem_of_mem_remainingAfter ((hleft _).mem_iff.mp hp)
    unfold sortedPlayersOf at h1
    exact hassign p ((List.mem_insertionSort _).mp h1)
  have hQ3 : ∀ t ∈ (phase3Result rng numTeams targetTeamSizes playersToUse).1,
      formationCapsOK t := by
    refine phase3_teams_pred_mem _ (fun p => p.assignedPosition ≠ some "GK")
      ?_ ?_ _ _ _ hW hQ2
    · intro code p t hWp _ hroom hQ
      have hpred : (fun q : Player => decide (q.assignedPosition = some "GK")) p = false :=
        decide_eq_false hWp
      rcases hroom with ⟨rfl, h4⟩ | ⟨rfl, h4⟩ | ⟨rfl, h4⟩
      · rw [pushLineAt_zero]
        refine ⟨?_, hQ.2.1, hQ.2.2.1, ?_⟩
        · simp only [pushDefender, List.length_append, List.length_cons, List.length_nil]
          omega
        · show ((t.players ++ [p]).countP _) ≤ 1
          rw [countP_append_singleton_false hpred]
          exact hQ.2.2.2
      · rw [pushLineAt_one]
        refine ⟨hQ.1, ?_, hQ.2.2.1, ?_⟩
        · simp only [pushMidfielder, List.length_append, List.length_cons, List.length_nil]
          omega
        · show ((t.players ++ [p]).countP _) ≤ 1
          rw [countP_append_singleton_false hpred]
          exact hQ.2.2.2
      · rw [pushLineAt_two]
        refine ⟨hQ.1, hQ.2.1, ?_, ?_⟩
        · simp only [pushForward, List.length_append, List.length_cons, List.length_nil]
          omega
        · show ((t.players ++ [p]).countP _) ≤ 1
          rw [countP_append_singleton_false hpred]
          exact hQ.2.2.2
    · intro p t hWp _ hQ
      have hpred : (fun q : Player => decide (q.assignedPosition = some "GK")) p = false :=
        decide_eq_false hWp
      refine ⟨hQ.1, hQ.2.1, hQ.2.2.1, ?_⟩
      show ((t.players ++ [p]).countP _) ≤ 1
      rw [countP_append_singleton_false hpred]
      exact hQ.2.2.2
  intro t ht
  rw [createBalanced_eq] at ht
  obtain ⟨u, hu, rfl⟩ := List.mem_map.mp ht
  obtain ⟨h1, h2, h3, h4⟩ := hQ3 u hu
  refine ⟨?_, ?_, ?_, ?_⟩
  · show (u.formation.defenders.map stripTemp).length ≤ 4
    simpa using h1
  · show (u.formation.midfielders.map stripTemp).length ≤ 4
    simpa using h2
  · show (u.formation.forwards.map stripTemp).length ≤ 3
    simpa using h3
  · show ((u.players.map stripTemp).countP _) ≤ 1
    rw [List.countP_map]
    exact h4

/-- Witness for C4 at a concrete run with identity shuffles. -/
theorem formationCaps_spec_witness :
    ((createBalancedTeamsWithSizeControl idRng 2 (calculateTeamSizes 2 2)
        c2Players).getD 0 default).formation.defenders.length ≤ 4 ∧
    ((createBalancedTeamsWithSizeControl idRng 2 (calculateTeamSizes 2 2)
        c2Players).getD 0 default).formation.midfielders.length ≤ 4 ∧
    ((createBalancedTeamsWithSizeControl idRng 2 (calculateTeamSizes 2 2)
        c2Players).getD 0 default).formation.forwards.length ≤ 3 ∧
    ((createBalancedTeamsWithSizeControl idRng 2 (calculateTeamSizes 2 2)
        c2Players).getD 0 default).players.countP
      (fun p => p.assignedPosition = some "GK") ≤ 1 :=
  formationCaps_spec idRng 2 (calculateTeamSizes 2 2) c2Players
    (fun l => List.Perm.refl l) (fun l => List.Perm.refl l) (by decide)
    _ (by decide)

/-! ## Goalkeeper allocation (claim C5) -/

lemma countP_comp_calc : ∀ (teams : List Team),
    (teams.map calculateTeamStatistics).countP (fun t => t.formation.goalkeeper.isSome) =
      teams.countP (fun t => t.formation.goalkeeper.isSome)
  | [] => rfl
  | t :: ts => by
    rw [List.map_cons, List.countP_cons, List.countP_cons, countP_comp_calc ts]
    have : (calculateTeamStatistics t).formation.goalkeeper.isSome =
        t.formation.goalkeeper.isSome := by
      rw [calculateTeamStatistics_goalkeeper]
      cases t.formation.goalkeeper <;> rfl
    rw [this]

lemma gkCandidates_initial_eq (rng : Rng) (numTeams : Nat) (targetTeamSizes : List Nat)
    (sorted : List Player) :
    gkCandidates sorted (initialState rng numTeams targetTeamSizes).assignedPlayers =
      sorted.filter (fun p => p.positions.contains "GK") := by
  unfold gkCandidates
  refine List.filter_congr ?_
  intro p _
  cases hb : p.positions.contains "GK" <;> rfl

/-- Transfer of a per-goalkeeper property through all phases: if every phase-1
pair's player (with `assignedPosition` set to `'GK'`) satisfies `pred`, then in
every returned team the goalkeeper satisfies `pred` and sits in `team.players`. -/
lemma gk_member_pipeline (rng : Rng) (numTeams : Nat) (targetTeamSizes : List Nat)
    (playersToUse : List Player) (pred : Player → Prop)
    (hstrip : ∀ p, pred p → pred (stripTemp p))
    (hpairs : ∀ pr ∈ gkPairs rng numTeams (sortedPlayersOf playersToUse)
      (initialState rng numTeams targetTeamSizes).assignedPlayers,
      pred { pr.1 with assignedPosition := some "GK" }) :
    ∀ t ∈ createBalancedTeamsWithSizeControl rng numTeams targetTeamSizes playersToUse,
      ∀ p, t.formation.goalkeeper = some p → pred p ∧ p ∈ t.players := by
  have h1 : ∀ t ∈ (stateAfterPhase1 rng numTeams targetTeamSizes playersToUse).teams,
      ∀ p, t.formation.goalkeeper = some p → pred p ∧ p ∈ t.players := by
    refine phase1_gk_member pred _ _ hpairs ?_
    intro t ht p hp
    rw [(mem_initTeams ht).2.1] at hp
    exact absurd hp (by simp)
  have h2 : ∀ t ∈ (stateAfterPhase2 rng numTeams targetTeamSizes playersToUse).teams,
      ∀ p, t.formation.goalkeeper = some p → pred p ∧ p ∈ t.players := by
    refine phase2_teams_pred _ ?_ numTeams _ _ h1
    intro item team tp htry _ hP
    obtain ⟨t', q⟩ := tp
    have hspec := tryAssignToTeam_spec htry
    intro p hp
    have hp' : team.formation.goalkeeper = some p := by
      rw [← hspec.2.2.2.2.1]
      exact hp
    obtain ⟨ha, hb⟩ := hP p hp'
    refine ⟨ha, ?_⟩
    show p ∈ t'.players
    rw [hspec.1]
    exact List.mem_append_left _ hb
  have h3 : ∀ t ∈ (phase3Result rng numTeams targetTeamSizes playersToUse).1,
      ∀ p, t.formation.goalkeeper = some p → pred p ∧ p ∈ t.players := by
    refine phase3_teams_pred _ ?_ ?_ _ _ _ h2
    · intro code q t _ _ hP p hp
      rw [pushLineAt_goalkeeper] at hp
      obtain ⟨ha, hb⟩ := hP p hp
      refine ⟨ha, ?_⟩
      rw [pushLineAt_players]
      exact List.mem_append_left _ hb
    · intro q t _ hP p hp
      obtain ⟨ha, hb⟩ := hP p hp
      exact ⟨ha, List.mem_append_left _ hb⟩
  intro t ht
  rw [createBalanced_eq] at ht
  obtain ⟨u, hu, rfl⟩ := List.mem_map.mp ht
  intro p hp
  rw [calculateTeamStatistics_goalkeeper] at hp
  obtain ⟨q, hq, rfl⟩ := Option.map_eq_some'.mp hp
  obtain ⟨ha, hb⟩ := h3 u hu q hq
  refine ⟨hstrip q ha, ?_⟩
  show stripTemp q ∈ u.players.map stripTemp
  exact List.mem_map_of_mem _ hb

/-- C5: with permutation shuffles, exactly `min numTeams k` teams receive a
goalkeeper (where `k` counts the GK-capable input players); every assigned keeper
carries `assignedPosition = 'GK'` and appears in its team's players list; and when
at least `numTeams` GK-capable players prefer the GK role, every assigned keeper
has `preferredPosition = 'GK'` (preferred keepers are consumed first). -/
theorem goalkeeperAllocation_spec (rng : Rng) (numTeams : Nat)
    (targetTeamSizes : List Nat) (playersToUse : List Player)
    (hpref : ∀ l, (rng.shufPrefGK l).Perm l)
    (halt : ∀ l, (rng.shufAltGK l).Perm l)
    (horder : ∀ l : List Nat, (rng.shufTeamOrder l).Perm l) :
    ((createBalancedTeamsWithSizeControl rng numTeams targetTeamSizes
        playersToUse).countP (fun t => t.formation.goalkeeper.isSome) =
      min numTeams (playersToUse.filter (fun p => p.positions.contains "GK")).length) ∧
    (∀ t ∈ createBalancedTeamsWithSizeControl rng numTeams targetTeamSizes playersToUse,
      ∀ p, t.formation.goalkeeper = some p →
        p.assignedPosition = some "GK" ∧ p ∈ t.players) ∧
    (numTeams ≤ ((playersToUse.filter (fun p => p.positions.contains "GK")).filter
        (fun p => p.preferredPosition == "GK")).length →
      ∀ t ∈ createBalancedTeamsWithSizeControl rng numTeams targetTeamSizes playersToUse,
        ∀ p, t.formation.goalkeeper = some p → p.preferredPosition = "GK") := by
  have horderlen : (rng.shufTeamOrder (List.range numTeams)).length = numTeams := by
    rw [(horder _).length_eq, List.length_range]
  refine ⟨?_, ?_, ?_⟩
  · -- exact goalkeeper count
    have hndsnd : (((gkPairs rng numTeams (sortedPlayersOf playersToUse)
        (initialState rng numTeams targetTeamSizes).assignedPlayers)).map
          Prod.snd).Nodup :=
      (map_snd_zip_sublist _ _).nodup ((horder _).symm.nodup (List.nodup_range _))
    have hcount1 := phase1_gk_count
      (gkPairs rng numTeams (sortedPlayersOf playersToUse)
        (initialState rng numTeams targetTeamSizes).assignedPlayers)
      (initialState rng numTeams targetTeamSizes) hndsnd ?_
    · have hcount0 : (initialState rng numTeams targetTeamSizes).teams.countP
          (fun t => t.formation.goalkeeper.isSome) = 0 := by
        refine List.countP_eq_zero.mpr ?_
        intro t ht
        show ¬ t.formation.goalkeeper.isSome = true
        rw [(mem_initTeams ht).2.1]
        simp
      have hchain : (createBalancedTeamsWithSizeControl rng numTeams targetTeamSizes
          playersToUse).countP (fun t => t.formation.goalkeeper.isSome) =
          (stateAfterPhase1 rng numTeams targetTeamSizes playersToUse).teams.countP
            (fun t => t.formation.goalkeeper.isSome) := by
        rw [createBalanced_eq, countP_comp_calc]
        rw [show (phase3Result rng numTeams targetTeamSizes playersToUse).1.countP
            (fun t => t.formation.goalkeeper.isSome) =
            (stateAfterPhase2 rng numTeams targetTeamSizes playersToUse).teams.countP
              (fun t => t.formation.goalkeeper.isSome) from phase3_gk_countP _ _ _]
        exact phase2_gk_countP numTeams _ _
      rw [hchain]
      rw [show (stateAfterPhase1 rng numTeams targetTeamSizes playersToUse).teams.countP
          (fun t => t.formation.goalkeeper.isSome) = _ from hcount1, hcount0]
      have hlenzip : (gkPairs rng numTeams (sortedPlayersOf playersToUse)
          (initialState rng numTeams targetTeamSizes).assignedPlayers).length =
          min (rng.shufPrefGK ((gkCandidates (sortedPlayersOf playersToUse)
              (initialState rng numTeams targetTeamSizes).assignedPlayers).filter
              (fun p => p.preferredPosition == "GK")) ++
            rng.shufAltGK ((gkCandidates (sortedPlayersOf playersToUse)
              (initialState rng numTeams targetTeamSizes).assignedPlayers).filter
              (fun p => p.preferredPosition != "GK"))).length
            (rng.shufTeamOrder (List.range numTeams)).length := List.length_zip _ _
      rw [hlenzip, horderlen]
      have hgklen : (rng.shufPrefGK ((gkCandidates (sortedPlayersOf playersToUse)
            (initialState rng numTeams targetTeamSizes).assignedPlayers).filter
            (fun p => p.preferredPosition == "GK")) ++
          rng.shufAltGK ((gkCandidates (sortedPlayersOf playersToUse)
            (initialState rng numTeams targetTeamSizes).assignedPlayers).filter
            (fun p => p.preferredPosition != "GK"))).length =
          (playersToUse.filter (fun p => p.positions.contains "GK")).length := by
        rw [(gkConcat_perm rng playersToUse _ hpref halt).length_eq,
          gkCandidates_initial_eq]
        exact ((List.perm_insertionSort _ _).filter _).length_eq
      rw [hgklen, Nat.min_comm]
      simp
    · intro j hj
      have h1 : j ∈ rng.shufTeamOrder (List.range numTeams) :=
        (map_snd_zip_sublist _ _).subset hj
      have h2 : j < numTeams := List.mem_range.mp ((horder _).mem_iff.mp h1)
      have h2' : j < (initialState rng numTeams targetTeamSizes).teams.length := by
        show j < (initTeams numTeams targetTeamSizes).length
        rw [initTeams_length]
        exact h2
      obtain ⟨u, hu⟩ : ∃ u, (initialState rng numTeams targetTeamSizes).teams[j]? =
          some u := by
        rw [List.getElem?_eq_getElem h2']
        exact ⟨_, rfl⟩
      exact ⟨u, hu, (mem_initTeams (List.getElem?_mem hu)).2.1⟩
  · -- each keeper is marked GK and listed
    intro t ht p hp
    exact gk_member_pipeline rng numTeams targetTeamSizes playersToUse
      (fun q => q.assignedPosition = some "GK") (fun q hq => hq)
      (fun pr _ => rfl) t ht p hp
  · -- preferred keepers consumed first
    intro hk t ht p hp
    refine (gk_member_pipeline rng numTeams targetTeamSizes playersToUse
      (fun q => q.preferredPosition = "GK") (fun q hq => hq) ?_ t ht p hp).1
    intro pr hpr
    show pr.1.preferredPosition = "GK"
    have h1 : pr.1 ∈ (gkPairs rng numTeams (sortedPlayersOf playersToUse)
        (initialState rng numTeams targetTeamSizes).assignedPlayers).map Prod.fst :=
      List.mem_map_of_mem _ hpr
    rw [show (gkPairs rng numTeams (sortedPlayersOf playersToUse)
        (initialState rng numTeams targetTeamSizes).assignedPlayers).map Prod.fst =
        _ from map_fst_zip_eq_take _ _, horderlen] at h1
    have hpreflen : numTeams ≤ (rng.shufPrefGK ((gkCandidates (sortedPlayersOf
        playersToUse) (initialState rng numTeams
          targetTeamSizes).assignedPlayers).filter
        (fun p => p.preferredPosition == "GK"))).length := by
      rw [(hpref _).length_eq, gkCandidates_initial_eq]
      unfold sortedPlayersOf
      rw [(((List.perm_insertionSort _ _).filter _).filter _).length_eq]
      exact hk
    rw [List.take_append_of_le_length hpreflen] at h1
    have h2 : pr.1 ∈ rng.shufPrefGK ((gkCandidates (sortedPlayersOf playersToUse)
        (initialState rng numTeams targetTeamSizes).assignedPlayers).filter
        (fun p => p.preferredPosition == "GK")) := (List.take_sublist _ _).subset h1
    have h3 := (List.mem_filter.mp ((hpref _).mem_iff.mp h2)).2
    exact eq_of_beq h3

/-- Witness for C5 at a concrete run with identity shuffles. -/
theorem goalkeeperAllocation_spec_witness :
    (createBalancedTeamsWithSizeControl idRng 2 (calculateTeamSizes 2 2)
        c2Players).countP (fun t => t.formation.goalkeeper.isSome) =
      min 2 (c2Players.filter (fun p => p.positions.contains "GK")).length :=
  (goalkeeperAllocation_spec idRng 2 (calculateTeamSizes 2 2) c2Players
    (fun l => List.Perm.refl l) (fun l => List.Perm.refl l)
    (fun l => List.Perm.refl l)).1

end SoccerGen
